import Mathlib

/-!
# Brink infinite-canvas engine: shallow embedding

A shallow embedding of the Brink scene engine (`src/Canvas/SceneManager.ts`,
`src/Canvas/EventBus.ts`, `src/Canvas/modules/ConnectionModule.ts`, the
`CanvasEngine` in `src/Canvas/InfiniteCanvasApp.tsx`, `src/Canvas/ObjectTypes.ts`
and the `Camera`), with theorems checking the specification's claims.

JavaScript numbers are modelled as exact rationals, JS objects holding
open key-value data (`props` / `metadata`) as association lists with
spread-merge semantics, the `Map` entity store as an insertion-ordered list
keyed by entity id, and exceptions as `Except` / explicit error flags.
-/

namespace Brink

/-- A JS value as stored in the open `props` / `metadata` maps.
`{x, y}` point objects (connector endpoints) are modelled as `vPoint`. -/
inductive Value where
  | vNull
  | vBool (b : Bool)
  | vNum (q : ℚ)
  | vStr (s : String)
  | vPoint (x y : ℚ)
deriving DecidableEq, Repr

/-- JS truthiness of a value. -/
def Value.truthy : Value → Bool
  | .vNull => false
  | .vBool b => b
  | .vNum q => decide (q ≠ 0)
  | .vStr s => decide (s ≠ "")
  | .vPoint _ _ => true

/-- Truthiness of a possibly-absent (`undefined`) value. -/
def truthyOpt : Option Value → Bool
  | none => false
  | some v => v.truthy

/-- Numeric coercion used where the source reads a numeric prop
(`e.props.width` etc.).  All theorems carry hypotheses making the prop a
`vNum`, so the `0` default for non-numeric values is never exercised
(JS would produce `NaN` there). -/
def numOf : Option Value → ℚ
  | some (.vNum q) => q
  | _ => 0

/-- An open JS object: ordered association list of fields. -/
abbrev Obj := List (String × Value)

/-- Field access `o[k]`: first binding wins (JS objects have unique keys). -/
def Obj.get : Obj → String → Option Value
  | [], _ => none
  | (k1, v) :: rest, k => if k1 = k then some v else Obj.get rest k

/-- JS assignment `o[k] = v` as used by spread: overwrite in place if the
key exists, else append (preserving JS object key order). -/
def Obj.set (o : Obj) (k : String) (v : Value) : Obj :=
  if o.any (fun p => p.1 = k) then
    o.map (fun p => if p.1 = k then (k, v) else p)
  else
    o ++ [(k, v)]

/-- JS object spread `{...a, ...b}`. -/
def Obj.merge (a b : Obj) : Obj :=
  b.foldl (fun acc kv => acc.set kv.1 kv.2) a

/-- `transform {x, y, scaleX, scaleY, rotation}` (src/Canvas/Types.ts). -/
structure Transform where
  x : ℚ
  y : ℚ
  scaleX : ℚ
  scaleY : ℚ
  rotation : ℚ
deriving DecidableEq, Repr

/-- A partial transform, as accepted by `updateObject`. -/
structure TransformPatch where
  x : Option ℚ := none
  y : Option ℚ := none
  scaleX : Option ℚ := none
  scaleY : Option ℚ := none
  rotation : Option ℚ := none
deriving DecidableEq, Repr

/-- `{...entity.transform, ...updates.transform}`. -/
def Transform.apply (t : Transform) (p : TransformPatch) : Transform :=
  { x := p.x.getD t.x
    y := p.y.getD t.y
    scaleX := p.scaleX.getD t.scaleX
    scaleY := p.scaleY.getD t.scaleY
    rotation := p.rotation.getD t.rotation }

/-- A world- or screen-space point. -/
structure Point where
  x : ℚ
  y : ℚ
deriving DecidableEq, Repr

/-- Axis-aligned bounding box (src/Canvas/Types.ts `BBox`). -/
structure BBox where
  minX : ℚ
  minY : ℚ
  maxX : ℚ
  maxY : ℚ
deriving DecidableEq, Repr

/-- Connection anchor position: top/right/bottom/left/center. -/
inductive Anchor where
  | t | r | b | l | c
deriving DecidableEq, Repr

/-- `getAnchorPoint` (src/Canvas/Types.ts). -/
def getAnchorPoint (bb : BBox) : Anchor → Point
  | .t => ⟨(bb.minX + bb.maxX) / 2, bb.minY⟩
  | .r => ⟨bb.maxX, (bb.minY + bb.maxY) / 2⟩
  | .b => ⟨(bb.minX + bb.maxX) / 2, bb.maxY⟩
  | .l => ⟨bb.minX, (bb.minY + bb.maxY) / 2⟩
  | .c => ⟨(bb.minX + bb.maxX) / 2, (bb.minY + bb.maxY) / 2⟩

/-- The anchor strings stored in `props.startAnchor` / `props.endAnchor`. -/
def anchorOfString : String → Option Anchor
  | "t" => some .t
  | "r" => some .r
  | "b" => some .b
  | "l" => some .l
  | "c" => some .c
  | _ => none

/-- `line.props.startAnchor || 'c'`: a falsy or absent anchor prop falls
back to center.  The engine only ever stores valid anchor strings, so the
center default for any other value is never exercised. -/
def anchorOr (v : Option Value) : Anchor :=
  match v with
  | some (.vStr s) => if s = "" then .c else (anchorOfString s).getD .c
  | _ => .c

/-- `CanvasEntity` (src/Canvas/Types.ts). -/
structure CanvasEntity where
  id : String
  type : String
  transform : Transform
  props : Obj
  metadata : Obj
  visible : Bool
  parentId : Option String
deriving DecidableEq, Repr

/-- The argument of `SceneManager.updateObject`: optional patches per
field group. -/
structure EntityUpdates where
  transform : Option TransformPatch := none
  props : Option Obj := none
  metadata : Option Obj := none
  visible : Option Bool := none
  parentId : Option (Option String) := none
deriving DecidableEq, Repr

/-- The merged entity built by `updateObject`
(`{...entity, ...updates, transform: ..., props: ..., metadata: ...}`). -/
def applyUpdates (e : CanvasEntity) (u : EntityUpdates) : CanvasEntity :=
  { e with
    visible := u.visible.getD e.visible
    parentId := match u.parentId with
      | some p => p
      | none => e.parentId
    transform := match u.transform with
      | some tp => e.transform.apply tp
      | none => e.transform
    props := match u.props with
      | some p => Obj.merge e.props p
      | none => e.props
    metadata := match u.metadata with
      | some m => Obj.merge e.metadata m
      | none => e.metadata }

/-! ## Entity store (`SceneManager.entities : Map<string, CanvasEntity>`)

The store is an insertion-ordered list; the Map key is always the entity's
`id` (every `entities.set(k, e)` in the source has `k = e.id`). -/

abbrev Store := List CanvasEntity

/-- `entities.get(id)`. -/
def Store.get : Store → String → Option CanvasEntity
  | [], _ => none
  | e :: rest, id => if e.id = id then some e else Store.get rest id

/-- `entities.set(e.id, e)`: JS Map keeps the original position of an
existing key and appends a new key. -/
def Store.setEntry (s : Store) (e : CanvasEntity) : Store :=
  if s.any (fun x => x.id = e.id) then
    s.map (fun x => if x.id = e.id then e else x)
  else
    s ++ [e]

/-- `entities.delete(id)`. -/
def Store.del (s : Store) (id : String) : Store :=
  s.filter (fun e => e.id ≠ id)

/-- Lifecycle events emitted on the bus. -/
inductive SceneEvent where
  | created (e : CanvasEntity)
  | updated (old new : CanvasEntity)
  | deleted (e : CanvasEntity)
  | selectionChanged (ids : List String)
  | toolChanged (tool : String)
deriving DecidableEq, Repr

/-- `SceneManager.updateObject` (src/Canvas/SceneManager.ts lines 62-75),
without module reactions: no-op on an unknown id, otherwise stores the
shallow-merged entity and emits `ENTITY_UPDATED` with old and new
snapshots. -/
def sceneUpdateObject (s : Store) (id : String) (u : EntityUpdates) :
    Store × List SceneEvent :=
  match s.get id with
  | none => (s, [])
  | some e =>
    let e' := applyUpdates e u
    (s.setEntry e', [.updated e e'])

/-- `SceneManager.deleteObject` (src/Canvas/SceneManager.ts lines 77-83). -/
def sceneDeleteObject (s : Store) (id : String) : Store × List SceneEvent :=
  match s.get id with
  | none => (s, [])
  | some e => (s.del id, [.deleted e])

/-- `SceneManager.createObject` with the fresh id passed explicitly
(`crypto.randomUUID()` is modelled by a hypothesis that the id is fresh). -/
def sceneCreateObject (s : Store) (id : String) (ty : String) (props : Obj)
    (tp : TransformPatch) (metadata : Obj) (parentId : Option String) :
    Store × List SceneEvent :=
  let e : CanvasEntity :=
    { id := id, type := ty
      transform := Transform.apply ⟨0, 0, 1, 1, 0⟩ tp
      props := props, metadata := metadata
      visible := true, parentId := parentId }
  (s.setEntry e, [.created e])

/-- `SceneManager.getAllObjects()`: insertion-order values. -/
def getAllObjects (s : Store) : List CanvasEntity := s

/-- `SceneManager.loadData(objects)` on well-typed records: clear, then
insert each record keyed by its id, without emitting events. -/
def loadData (objects : List CanvasEntity) : Store :=
  objects.foldl (fun acc o => acc.setEntry o) []

/-! ## Object type registry -/

/-- `ObjectTypeDefinition` (render is a pure drawing effect and is not
modelled). -/
structure ObjectTypeDefinition where
  type : String
  hitTest : CanvasEntity → ℚ → ℚ → Bool
  getBBox : CanvasEntity → BBox

/-- `RectangleType.getBBox`, shared by all ten built-in types. -/
def rectGetBBox (e : CanvasEntity) : BBox :=
  { minX := e.transform.x
    minY := e.transform.y
    maxX := e.transform.x + numOf (e.props.get "width")
    maxY := e.transform.y + numOf (e.props.get "height") }

/-- `RectangleType.hitTest` from src/Canvas/ObjectTypes.ts (lines 55-59):
rectangle expanded by a 10-unit selection padding. -/
def rectHitTestPadded (e : CanvasEntity) (wx wy : ℚ) : Bool :=
  decide (e.transform.x - 10 ≤ wx) &&
  decide (wx ≤ e.transform.x + numOf (e.props.get "width") + 10) &&
  decide (e.transform.y - 10 ≤ wy) &&
  decide (wy ≤ e.transform.y + numOf (e.props.get "height") + 10)

/-- `RectangleType.hitTest` from the inline engine in
src/Canvas/InfiniteCanvasApp.tsx (lines 319-322): the exact rectangle,
with no padding. -/
def rectHitTestInline (e : CanvasEntity) (wx wy : ℚ) : Bool :=
  decide (e.transform.x ≤ wx) &&
  decide (wx ≤ e.transform.x + numOf (e.props.get "width")) &&
  decide (e.transform.y ≤ wy) &&
  decide (wy ≤ e.transform.y + numOf (e.props.get "height"))

/-- `LineType.hitTest` (identical in both copies): bounding rectangle
expanded by 10. -/
def lineHitTest (e : CanvasEntity) (wx wy : ℚ) : Bool :=
  decide (e.transform.x - 10 ≤ wx) &&
  decide (wx ≤ e.transform.x + numOf (e.props.get "width") + 10) &&
  decide (e.transform.y - 10 ≤ wy) &&
  decide (wy ≤ e.transform.y + numOf (e.props.get "height") + 10)

/-- The ten type definitions of src/Canvas/ObjectTypes.ts; every
non-line/arrow type aliases `RectangleType.hitTest`/`getBBox`. -/
def objectTypesRegistry : List ObjectTypeDefinition :=
  [⟨"RECTANGLE", rectHitTestPadded, rectGetBBox⟩,
   ⟨"STICKY_NOTE", rectHitTestPadded, rectGetBBox⟩,
   ⟨"TEXT", rectHitTestPadded, rectGetBBox⟩,
   ⟨"ELLIPSE", rectHitTestPadded, rectGetBBox⟩,
   ⟨"TRIANGLE", rectHitTestPadded, rectGetBBox⟩,
   ⟨"DIAMOND", rectHitTestPadded, rectGetBBox⟩,
   ⟨"LINE", lineHitTest, rectGetBBox⟩,
   ⟨"ARROW", lineHitTest, rectGetBBox⟩,
   ⟨"FRAME", rectHitTestPadded, rectGetBBox⟩,
   ⟨"IMAGE", rectHitTestPadded, rectGetBBox⟩]

/-- The ten inline type definitions registered by the `CanvasEngine`
constructor in src/Canvas/InfiniteCanvasApp.tsx (registration order as in
the constructor); the shared shape hit-test there has no padding. -/
def engineRegistry : List ObjectTypeDefinition :=
  [⟨"RECTANGLE", rectHitTestInline, rectGetBBox⟩,
   ⟨"STICKY_NOTE", rectHitTestInline, rectGetBBox⟩,
   ⟨"TEXT", rectHitTestInline, rectGetBBox⟩,
   ⟨"ELLIPSE", rectHitTestInline, rectGetBBox⟩,
   ⟨"TRIANGLE", rectHitTestInline, rectGetBBox⟩,
   ⟨"DIAMOND", rectHitTestInline, rectGetBBox⟩,
   ⟨"LINE", lineHitTest, rectGetBBox⟩,
   ⟨"ARROW", lineHitTest, rectGetBBox⟩,
   ⟨"FRAME", rectHitTestInline, rectGetBBox⟩,
   ⟨"IMAGE", rectHitTestInline, rectGetBBox⟩]

/-- `SceneManager.getObjectType`. -/
def getObjectType (reg : List ObjectTypeDefinition) (t : String) :
    Option ObjectTypeDefinition :=
  reg.find? (fun d => d.type = t)

/-! ## Connection module -/

/-- `line.props.start || fallback` (and the `end` analogue): a stored
point object wins over a falsy/absent value.  A truthy non-point value
would be a malformed endpoint in JS; the engine never stores one, and the
junk result for that case is excluded by hypotheses. -/
def valOrPoint (v : Option Value) (d : Point) : Point :=
  match v with
  | some (.vPoint px py) => ⟨px, py⟩
  | some w => if w.truthy then ⟨0, 0⟩ else d
  | none => d

/-- Guarded lookup of a connected endpoint: truthy id, existing entity,
registered type — otherwise the fallback endpoint stays.  A truthy
non-string id would miss the string-keyed Map and behaves like `none`. -/
def resolveConn (reg : List ObjectTypeDefinition) (store : Store)
    (v : Option Value) : Option (CanvasEntity × ObjectTypeDefinition) :=
  match v with
  | some (.vStr cid) =>
    if cid = "" then none
    else
      match store.get cid with
      | some obj =>
        match getObjectType reg obj.type with
        | some td => some (obj, td)
        | none => none
      | none => none
  | _ => none

/-- The start endpoint resolved by `updateLineConnections`: the connected
entity's anchor point when the connection resolves, else the stored (or
default) raw endpoint. -/
def ulcStart (reg : List ObjectTypeDefinition) (store : Store)
    (line : CanvasEntity) : Point :=
  match resolveConn reg store (line.props.get "startConnectedId") with
  | some (obj, td) =>
    getAnchorPoint (td.getBBox obj) (anchorOr (line.props.get "startAnchor"))
  | none => valOrPoint (line.props.get "start")
      ⟨line.transform.x, line.transform.y⟩

/-- The end endpoint resolved by `updateLineConnections`. -/
def ulcEnd (reg : List ObjectTypeDefinition) (store : Store)
    (line : CanvasEntity) : Point :=
  match resolveConn reg store (line.props.get "endConnectedId") with
  | some (obj, td) =>
    getAnchorPoint (td.getBBox obj) (anchorOr (line.props.get "endAnchor"))
  | none => valOrPoint (line.props.get "end")
      ⟨line.transform.x + numOf (line.props.get "width"),
       line.transform.y + numOf (line.props.get "height")⟩

/-- The update record written by `updateLineConnections`:
`{ transform: {x: minX, y: minY},
   props: {...line.props, width, height, start: s, end: e} }`. -/
def ulcUpdates (reg : List ObjectTypeDefinition) (store : Store)
    (line : CanvasEntity) : EntityUpdates :=
  let s1 := ulcStart reg store line
  let e1 := ulcEnd reg store line
  { transform := some { x := some (min s1.x e1.x), y := some (min s1.y e1.y) }
    props := some (Obj.merge line.props
      [("width", .vNum |e1.x - s1.x|), ("height", .vNum |e1.y - s1.y|),
       ("start", .vPoint s1.x s1.y), ("end", .vPoint e1.x e1.y)]) }

/-- `ConnectionModule.updateLineConnections` (src/Canvas/modules/
ConnectionModule.ts lines 32-60): resolve both endpoints, recompute the
bounding transform (`min`) and size (`abs`), and store the raw endpoints;
the write goes through `updateObject`. -/
def updateLineConnections (reg : List ObjectTypeDefinition) (store : Store)
    (line : CanvasEntity) : Store × List SceneEvent :=
  sceneUpdateObject store line.id (ulcUpdates reg store line)

/-- `o.type === 'LINE' || o.type === 'ARROW'`. -/
def isConnectorType (t : String) : Bool :=
  t = "LINE" || t = "ARROW"

/-- `ConnectionModule.onEntityUpdated`: for a non-connector update, filter
all connectors referencing the updated id (strict string equality) and
re-route each in store order. -/
def connectionReact (reg : List ObjectTypeDefinition) (store : Store)
    (entity : CanvasEntity) : Store × List SceneEvent :=
  if isConnectorType entity.type then (store, [])
  else
    let lines := store.filter (fun o =>
      isConnectorType o.type &&
      (decide (o.props.get "startConnectedId" = some (.vStr entity.id)) ||
       decide (o.props.get "endConnectedId" = some (.vStr entity.id))))
    lines.foldl (fun acc line =>
      let r := updateLineConnections reg acc.1 line
      (r.1, acc.2 ++ r.2)) (store, [])

/-! ## Engine-level mutation: scene operation plus synchronous bus
reactions.  `ENTITY_UPDATED` is handled by the connection module (and a
dirty-flag setter with no scene effect); the re-route's own line updates
emit `ENTITY_UPDATED` for connector-typed entities, which the handler
ignores, so the reaction does not recurse. -/

/-- `SceneManager.updateObject` with the registered modules reacting in
the same synchronous update cycle. -/
def engineUpdateObject (reg : List ObjectTypeDefinition) (store : Store)
    (id : String) (u : EntityUpdates) : Store × List SceneEvent :=
  match store.get id with
  | none => (store, [])
  | some e =>
    let e' := applyUpdates e u
    let st1 := store.setEntry e'
    let r := connectionReact reg st1 e'
    (r.1, .updated e e' :: r.2)

/-- Engine scene state: the entity store plus the selection module's
selected-id set (a JS `Set`: insertion-ordered, duplicate-free). -/
structure EngineScene where
  store : Store
  selected : List String
deriving DecidableEq, Repr

/-- `Set.add`. -/
def selectedSetAdd (sel : List String) (id : String) : List String :=
  if id ∈ sel then sel else sel ++ [id]

/-- The `metadata: { selected: b }` update sent by the selection module. -/
def selMetaUpdate (b : Bool) : EntityUpdates :=
  { metadata := some [("selected", .vBool b)] }

/-- `SelectionModule.select(id, multi)`: without `multi`, un-mark and drop
every previously selected id first; then add `id` and mark it. -/
def selectOp (reg : List ObjectTypeDefinition) (s : EngineScene)
    (id : String) (multi : Bool) : EngineScene :=
  let s1 := if multi then s else
    { store := s.selected.foldl
        (fun st sid => (engineUpdateObject reg st sid (selMetaUpdate false)).1)
        s.store
      selected := [] }
  { store := (engineUpdateObject reg s1.store id (selMetaUpdate true)).1
    selected := selectedSetAdd s1.selected id }

/-- `SelectionModule.clearSelection`. -/
def clearSelectionOp (reg : List ObjectTypeDefinition) (s : EngineScene) :
    EngineScene :=
  { store := s.selected.foldl
      (fun st sid => (engineUpdateObject reg st sid (selMetaUpdate false)).1)
      s.store
    selected := [] }

/-- `SceneManager.deleteObject` with the selection module's
`ENTITY_DELETED` handler (drop the id from the selection). -/
def engineDeleteObject (s : EngineScene) (id : String) : EngineScene :=
  match s.store.get id with
  | none => s
  | some _ =>
    { store := s.store.del id
      selected := if id ∈ s.selected then s.selected.erase id else s.selected }

/-- `SelectionModule.deleteSelected`: delete every selected entity (over a
snapshot of the id set), then clear the selection. -/
def deleteSelectedOp (reg : List ObjectTypeDefinition) (s : EngineScene) :
    EngineScene :=
  clearSelectionOp reg (s.selected.foldl (fun acc id => engineDeleteObject acc id) s)

/-- The operations quantified over by the selection-mirror invariant:
selection-module calls and entity deletions. -/
inductive SelOp where
  | select (id : String) (multi : Bool)
  | clear
  | deleteSelected
  | deleteEntity (id : String)
deriving DecidableEq, Repr

def runSelOp (reg : List ObjectTypeDefinition) (s : EngineScene) :
    SelOp → EngineScene
  | .select id multi => selectOp reg s id multi
  | .clear => clearSelectionOp reg s
  | .deleteSelected => deleteSelectedOp reg s
  | .deleteEntity id => engineDeleteObject s id

def runSelOps (reg : List ObjectTypeDefinition) (s : EngineScene)
    (ops : List SelOp) : EngineScene :=
  ops.foldl (runSelOp reg) s

/-! ## Camera and wheel zoom -/

/-- `Camera {x, y, zoom}`. -/
structure Camera where
  x : ℚ
  y : ℚ
  zoom : ℚ
deriving DecidableEq, Repr

/-- `Camera.screenToWorld`. -/
def screenToWorld (c : Camera) (sx sy : ℚ) : Point :=
  ⟨sx / c.zoom + c.x, sy / c.zoom + c.y⟩

/-- `Camera.worldToScreen`. -/
def worldToScreen (c : Camera) (wx wy : ℚ) : Point :=
  ⟨(wx - c.x) * c.zoom, (wy - c.y) * c.zoom⟩

/-- `CanvasEngine.onWheel`, ctrl-key branch (src/Canvas/InfiniteCanvasApp.tsx
lines 1363-1371): multiply zoom by `1 + (-deltaY * 0.01)`, clamp to
[0.1, 5], and recenter around the cursor's screen position. -/
def onWheelZoom (c : Camera) (sx sy deltaY : ℚ) : Camera :=
  let delta := -deltaY * (1 / 100)
  let newZoom := min (max (c.zoom * (1 + delta)) (1 / 10)) 5
  let wx := sx / c.zoom + c.x
  let wy := sy / c.zoom + c.y
  { zoom := newZoom, x := wx - sx / newZoom, y := wy - sy / newZoom }

/-! ## Event bus dispatch -/

/-- `EventBus.emit`'s dispatch loop over the subscribed callbacks
(src/Canvas/EventBus.ts lines 17-25).  A callback is a JS function that
either returns or throws (`Except`).  Each invocation is wrapped in its
own try/catch: a throw is logged and the loop continues.  The result
records, per listener in order, whether it returned normally; `emit`
itself can only finish normally (`Except.ok`). -/
def dispatchAll {α : Type} (cbs : List (α → Except String Unit)) (p : α) :
    Except String (List Bool) :=
  match cbs with
  | [] => .ok []
  | cb :: rest =>
    let r := match cb p with
      | .ok _ => true
      | .error _ => false
    match dispatchAll rest p with
    | .ok rs => .ok (r :: rs)
    | .error e => .error e

/-- An `EventBus`: event name to ordered listener collection. -/
def EmitBus (α : Type) : Type := List (String × List (α → Except String Unit))

/-- `EventBus.emit(event, payload)`: look up the listener set for the
event (no subscribers: nothing happens) and dispatch to each. -/
def emitModel {α : Type} (bus : EmitBus α) (event : String) (p : α) :
    Except String (List Bool) :=
  match (bus.find? (fun e => e.1 = event)).map (fun e => e.2) with
  | none => .ok []
  | some cbs => dispatchAll cbs p

/-! ## Interaction: resizing -/

/-- Resize handle tags. -/
inductive HandleType where
  | tl | tr | bl | br
deriving DecidableEq, Repr

/-- The `resizeOriginal` snapshot `{x, y, w, h}` taken on pointer-down. -/
structure ResizeOriginal where
  x : ℚ
  y : ℚ
  w : ℚ
  h : ℚ
deriving DecidableEq, Repr

/-- The per-handle geometry of the resize branch of
`CanvasEngine.onPointerMove` (src/Canvas/InfiniteCanvasApp.tsx lines
1260-1285): clamp width/height to `minSize = 20` and move only the free
corner. -/
def resizeStep (handle : HandleType) (o : ResizeOriginal) (wx wy : ℚ) :
    ResizeOriginal :=
  match handle with
  | .tl =>
    let width := (o.x + o.w) - wx
    let height := (o.y + o.h) - wy
    { x := if width ≥ 20 then wx else o.x
      y := if height ≥ 20 then wy else o.y
      w := if width ≥ 20 then width else 20
      h := if height ≥ 20 then height else 20 }
  | .tr =>
    let width := wx - o.x
    let height := (o.y + o.h) - wy
    { x := o.x
      y := if height ≥ 20 then wy else o.y
      w := if width < 20 then 20 else width
      h := if height ≥ 20 then height else 20 }
  | .bl =>
    let width := (o.x + o.w) - wx
    let height := wy - o.y
    { x := if width ≥ 20 then wx else o.x
      y := o.y
      w := if width ≥ 20 then width else 20
      h := if height < 20 then 20 else height }
  | .br =>
    { x := o.x
      y := o.y
      w := if wx - o.x < 20 then 20 else wx - o.x
      h := if wy - o.y < 20 then 20 else wy - o.y }

/-- The store write of the resize branch:
`updateObject(draggedEntityId, { transform: {x, y}, props: {width, height} })`,
with the modules reacting. -/
def engineResizeMove (reg : List ObjectTypeDefinition) (store : Store)
    (did : String) (handle : HandleType) (o : ResizeOriginal) (wx wy : ℚ) :
    Store × List SceneEvent :=
  let r := resizeStep handle o wx wy
  engineUpdateObject reg store did
    { transform := some { x := some r.x, y := some r.y }
      props := some [("width", .vNum r.w), ("height", .vNum r.h)] }

/-! ## Interaction: creation and pointer-up -/

/-- `FRAME_PRESETS` (src/Canvas/Types.ts). -/
def framePresetDims : String → Option (ℚ × ℚ)
  | "A4" => some (595, 842)
  | "Letter" => some (612, 792)
  | "16:9" => some (1920, 1080)
  | "4:3" => some (1024, 768)
  | "1:1" => some (1080, 1080)
  | "Mobile" => some (390, 844)
  | "Tablet" => some (834, 1194)
  | "Desktop" => some (1440, 1024)
  | _ => none

/-- The `fallbacks` table of `CanvasEngine.onPointerUp`
(`fallbacks[entity.type] || {w: 100, h: 100}`); the FRAME entry uses the
active frame preset's dimensions when one was chosen. -/
def creationFallback (framePreset : Option String) (ty : String) : ℚ × ℚ :=
  match ty with
  | "STICKY_NOTE" => (200, 200)
  | "RECTANGLE" => (100, 100)
  | "ELLIPSE" => (100, 100)
  | "TRIANGLE" => (100, 100)
  | "DIAMOND" => (100, 100)
  | "LINE" => (100, 100)
  | "ARROW" => (100, 100)
  | "FRAME" =>
    match framePreset with
    | some p => (framePresetDims p).getD (400, 300)
    | none => (400, 300)
  | "TEXT" => (250, 50)
  | _ => (100, 100)

/-- Engine interaction state for the creation flow: scene plus the
tool/creation bookkeeping fields of `CanvasEngine`. -/
structure EngineUIState where
  scene : EngineScene
  activeTool : String
  framePreset : Option String
  creatingEntityId : Option String
  createStartPoint : Option Point
deriving Repr

/-- Pointer-down with a shape/connector/frame tool mapped to `ty`
(src/Canvas/InfiniteCanvasApp.tsx lines 1068-1086): create a zero-size
entity at the pointer's world position (`defaultProps` carries the
tool-specific defaults, starting with `width: 0, height: 0`) and enter
Creating.  The fresh `crypto.randomUUID()` is passed explicitly. -/
def onPointerDownCreate (st : EngineUIState) (freshId : String)
    (wpt : Point) (ty : String) (defaultProps : Obj) : EngineUIState :=
  { st with
    scene := { st.scene with
      store := (sceneCreateObject st.scene.store freshId ty defaultProps
        { x := some wpt.x, y := some wpt.y } [] none).1 }
    creatingEntityId := some freshId
    createStartPoint := some wpt }

/-- The Creating branch of `CanvasEngine.onPointerMove` (lines 1219-1258)
in the case where no other entity is hovered (`hoveredEntityId` null): the
entity's box becomes the axis-aligned rectangle between the start point
and the pointer; a connector additionally stores `direction`, its raw
`end` point and null end-connection fields. -/
def onPointerMoveCreatingNoHover (reg : List ObjectTypeDefinition)
    (st : EngineUIState) (wpt : Point) : EngineUIState :=
  match st.creatingEntityId, st.createStartPoint with
  | some cid, some sp =>
    let entity := st.scene.store.get cid
    let isConn := match entity with
      | some e => isConnectorType e.type
      | none => false
    let extraProps : Obj :=
      if isConn then
        [("direction", .vStr (if (decide (wpt.x ≥ sp.x)) = (decide (wpt.y ≥ sp.y))
            then "nw-se" else "sw-ne")),
         ("end", .vPoint wpt.x wpt.y),
         ("endConnectedId", .vNull),
         ("endAnchor", .vNull)]
      else []
    let u : EntityUpdates :=
      { transform := some { x := some (min sp.x wpt.x), y := some (min sp.y wpt.y) }
        props := some ([("width", .vNum |wpt.x - sp.x|),
                        ("height", .vNum |wpt.y - sp.y|)] ++ extraProps) }
    { st with scene := { st.scene with
        store := (engineUpdateObject reg st.scene.store cid u).1 } }
  | _, _ => st

/-- `CanvasEngine.onPointerUp` (src/Canvas/InfiniteCanvasApp.tsx lines
1326-1359), Creating case: snap a too-small entity (unless it is a
connector with a live end connection) to its type fallback size, select
the new entity, and revert the tool to select (`switchTool('SELECT')`
clears the frame preset). -/
def onPointerUpModel (reg : List ObjectTypeDefinition) (st : EngineUIState) :
    EngineUIState :=
  match st.creatingEntityId with
  | none => st
  | some cid =>
    let store1 :=
      match st.scene.store.get cid with
      | none => st.scene.store
      | some entity =>
        if numOf (entity.props.get "width") < 10 ∨
            numOf (entity.props.get "height") < 10 then
          if ¬(isConnectorType entity.type ∧
              truthyOpt (entity.props.get "endConnectedId")) then
            let fb := creationFallback st.framePreset entity.type
            let base := Obj.merge entity.props
              [("width", .vNum fb.1), ("height", .vNum fb.2)]
            let ps := if isConnectorType entity.type then
                Obj.set base "end"
                  (.vPoint (entity.transform.x + fb.1) (entity.transform.y + fb.2))
              else base
            (engineUpdateObject reg st.scene.store cid { props := some ps }).1
          else st.scene.store
        else st.scene.store
    let scene2 := selectOp reg { store := store1, selected := st.scene.selected } cid false
    { scene := scene2
      activeTool := "SELECT"
      framePreset := none
      creatingEntityId := none
      createStartPoint := none }

/-! ## Import / export

`exportData` is `JSON.stringify(getAllObjects(), null, 2)`;
`importData` is `JSON.parse` (in a try/catch), an `Array.isArray` check,
`loadData`, and `clearSelection`.  `JSON.parse` returns raw untyped
values (the `as CanvasEntity[]` is only a cast), so import is modelled on
a small JSON value type; the string level of `JSON.parse`/`JSON.stringify` is
abstracted into an `Option Json` parse result (`none`: the string is
rejected), using that JSON round-trips the engine's records exactly. -/

/-- A parsed JSON value. -/
inductive Json where
  | null
  | jsonBool (b : Bool)
  | jsonNum (q : ℚ)
  | jsonStr (s : String)
  | jsonArr (xs : List Json)
  | jsonObj (fields : List (String × Json))

mutual

/-- Structural equality of parsed JSON values, used for Map key
comparison.  The keys that occur are strings, where JS Map comparison is
value equality; JS would compare object keys by reference, which a value
model cannot express (no claim depends on object-valued ids). -/
def Json.beq : Json → Json → Bool
  | .null, .null => true
  | .jsonBool a, .jsonBool b => a == b
  | .jsonNum a, .jsonNum b => a == b
  | .jsonStr a, .jsonStr b => a == b
  | .jsonArr xs, .jsonArr ys => Json.beqList xs ys
  | .jsonObj xs, .jsonObj ys => Json.beqFields xs ys
  | _, _ => false

def Json.beqList : List Json → List Json → Bool
  | [], [] => true
  | x :: xs, y :: ys => Json.beq x y && Json.beqList xs ys
  | _, _ => false

def Json.beqFields : List (String × Json) → List (String × Json) → Bool
  | [], [] => true
  | (k1, v1) :: xs, (k2, v2) :: ys =>
    k1 == k2 && Json.beq v1 v2 && Json.beqFields xs ys
  | _, _ => false

end

/-- Map key equality (`undefined` equals `undefined`). -/
def jsonKeyBeq : Option Json → Option Json → Bool
  | none, none => true
  | some a, some b => Json.beq a b
  | _, _ => false

/-- `o.id` on a raw parsed value: throws a TypeError on `null`; an object
yields its `id` field or `undefined` (`none`); other primitives have no
`id` property. -/
def jsonIdAccess : Json → Except Unit (Option Json)
  | .null => .error ()
  | .jsonObj fs => .ok ((fs.find? (fun p => p.1 = "id")).map (fun p => p.2))
  | _ => .ok none

/-- A raw imported store: Map entries keyed by the raw `obj.id` value
(`none` = `undefined`). -/
abbrev RawStore := List (Option Json × Json)

/-- `loadData` over raw parsed records: the Map is already cleared; each
element is inserted keyed by `obj.id`.  Returns whether a TypeError
escaped (aborting the loop) together with the entries written so far. -/
def loadDataJs : List Json → RawStore → Bool × RawStore
  | [], acc => (false, acc)
  | o :: rest, acc =>
    match jsonIdAccess o with
    | .error _ => (true, acc)
    | .ok k =>
      let acc' := if acc.any (fun p => jsonKeyBeq p.1 k) then
          acc.map (fun p => if jsonKeyBeq p.1 k then (k, o) else p)
        else acc ++ [(k, o)]
      loadDataJs rest acc'

/-- Engine state as seen by `importData`: the raw entity Map and the
selection module's id set. -/
structure ImportState where
  entities : RawStore
  selected : List String

/-- `updateObject(sid, { metadata: { selected: false } })` applied to a
raw record during the post-import `clearSelection` (only the keys
relevant to the raw store are tracked: the record's `metadata.selected`
field is overwritten). -/
def rawClearSelected : Json → Json
  | .jsonObj fs =>
    let meta := match (fs.find? (fun p => p.1 = "metadata")).map (fun p => p.2) with
      | some (.jsonObj ms) => ms
      | _ => []
    let ms' := if meta.any (fun p => p.1 = "selected") then
        meta.map (fun p => if p.1 = "selected" then ("selected", Json.jsonBool false) else p)
      else meta ++ [("selected", Json.jsonBool false)]
    let fs' := if fs.any (fun p => p.1 = "metadata") then
        fs.map (fun p => if p.1 = "metadata" then ("metadata", Json.jsonObj ms') else p)
      else fs ++ [("metadata", Json.jsonObj ms')]
    .jsonObj fs'
  | j => j

/-- `SelectionModule.clearSelection` running against the freshly imported
raw store: each previously selected id that matches a loaded record gets
`metadata.selected` overwritten to `false` (a no-op for ids absent from
the new store). -/
def importClearSel (st : RawStore) (sel : List String) : RawStore :=
  sel.foldl (fun acc sid =>
    if acc.any (fun p => jsonKeyBeq p.1 (some (.jsonStr sid))) then
      acc.map (fun p => if jsonKeyBeq p.1 (some (.jsonStr sid))
        then (p.1, rawClearSelected p.2) else p)
    else acc) st

/-- `CanvasEngine.importData` (src/Canvas/InfiniteCanvasApp.tsx lines
1443-1455) over the parse result.  `none`: `JSON.parse` threw, caught —
nothing changes.  A non-array value: the `Array.isArray` guard fails —
nothing changes.  An array: `loadData` clears the Map and inserts each
record; a TypeError inside it (a `null` element) is caught by the same
try/catch, so the selection is not cleared and the store keeps only the
entries written before the throw; otherwise `clearSelection` runs. -/
def importDataJs (p : Option Json) (st : ImportState) : ImportState :=
  match p with
  | none => st
  | some j =>
    match j with
    | .jsonArr xs =>
      let r := loadDataJs xs []
      if r.1 then { st with entities := r.2 }
      else { entities := importClearSel r.2 st.selected, selected := [] }
    | _ => st

/-- `importData(exportData())` on a well-typed engine scene: the exported
string parses back to exactly the exported records (JSON round-trips the
engine's records), `Array.isArray` passes, the elements are non-null, so
the path is `loadData` followed by the engine-level `clearSelection`. -/
def exportImportRoundtrip (reg : List ObjectTypeDefinition)
    (s : EngineScene) : EngineScene :=
  clearSelectionOp reg
    { store := loadData (getAllObjects s.store), selected := s.selected }

/-! ## Statement helpers -/

/-- The id column of the store (the Map key set, in order). -/
def idsOf (s : Store) : List String := s.map (fun e => e.id)

/-- Id and type tag of each entry, in order. -/
def keysOf (s : Store) : List (String × String) := s.map (fun e => (e.id, e.type))

/-- The metadata of the entity stored under `c`, if any. -/
def metadataAt (s : Store) (c : String) : Option Obj :=
  (s.get c).map (fun e => e.metadata)

/-- JS `b ?? a` on lookups: the override wins when present. -/
def firstSome (b a : Option Value) : Option Value :=
  match b with
  | some v => some v
  | none => a

/-- Entity evolution under connector re-routing: id, type tag and
metadata are preserved, and an entity that is not a connector is not
touched at all. -/
def GeoSim (a b : CanvasEntity) : Prop :=
  b.id = a.id ∧ b.type = a.type ∧ b.metadata = a.metadata ∧
    (isConnectorType a.type = false → b = a)

/-! ## Concrete instances used by witnesses and counterexamples -/

/-- A plain rectangle at the origin, 100 by 100. -/
def rect100 : CanvasEntity :=
  { id := "r1", type := "RECTANGLE"
    transform := ⟨0, 0, 1, 1, 0⟩
    props := [("width", .vNum 100), ("height", .vNum 100),
      ("color", .vStr "#60a5fa")]
    metadata := [], visible := true, parentId := none }

/-- A selected rectangle, as exported mid-session: `metadata.selected` is
`true` and its id sits in the selection module's set. -/
def rectSelected : CanvasEntity :=
  { id := "a", type := "RECTANGLE"
    transform := ⟨0, 0, 1, 1, 0⟩
    props := [("width", .vNum 100), ("height", .vNum 100)]
    metadata := [("selected", .vBool true)], visible := true
    parentId := none }

/-- A scene holding one selected rectangle. -/
def sceneSelected : EngineScene := ⟨[rectSelected], ["a"]⟩

/-- A raw record as parsed from an exported board. -/
def rawRecordA : Json :=
  .jsonObj [("id", .jsonStr "a"), ("type", .jsonStr "RECTANGLE")]

/-- An import-facing engine state holding one raw record and no
selection. -/
def importStateA : ImportState := ⟨[(some (.jsonStr "a"), rawRecordA)], []⟩

/-- A rectangle (selected) that a connector is start-anchored to. -/
def anchorRect : CanvasEntity :=
  { id := "x", type := "RECTANGLE"
    transform := ⟨0, 0, 1, 1, 0⟩
    props := [("width", .vNum 100), ("height", .vNum 100)]
    metadata := [("selected", .vBool true)], visible := true
    parentId := none }

/-- A line mid-creation: below the 10-unit threshold, start-connected to
`anchorRect`'s right anchor, with no live end connection. -/
def creatingLine : CanvasEntity :=
  { id := "l", type := "LINE"
    transform := ⟨2, 2, 1, 1, 0⟩
    props := [("width", .vNum 5), ("height", .vNum 5),
      ("color", .vStr "#64748b"), ("direction", .vStr "nw-se"),
      ("startConnectedId", .vStr "x"), ("startAnchor", .vStr "r"),
      ("start", .vPoint 2 2), ("end", .vPoint 7 7),
      ("endConnectedId", .vNull), ("endAnchor", .vNull)]
    metadata := [], visible := true, parentId := none }

/-- The interaction state at pointer-up while creating `creatingLine`,
with the anchored rectangle still selected. -/
def lineCreationState : EngineUIState :=
  { scene := ⟨[anchorRect, creatingLine], ["x"]⟩
    activeTool := "LINE", framePreset := none
    creatingEntityId := some "l", createStartPoint := some ⟨2, 2⟩ }

/-- A rectangle mid-creation, dragged from (0, 0) to (5, 5). -/
def c6Rect : CanvasEntity :=
  { id := "r", type := "RECTANGLE"
    transform := ⟨0, 0, 1, 1, 0⟩
    props := [("width", .vNum 5), ("height", .vNum 5),
      ("fill", .vStr "#e2e8f0")]
    metadata := [], visible := true, parentId := none }

/-- The interaction state at pointer-up while creating `c6Rect`, with
nothing previously selected. -/
def c6State : EngineUIState :=
  { scene := ⟨[c6Rect], []⟩
    activeTool := "RECTANGLE", framePreset := none
    creatingEntityId := some "r", createStartPoint := some ⟨0, 0⟩ }

/-- `creatingLine` after the pointer-up snap: width and height pushed to
the 100-unit fallback, raw end point moved to transform plus fallback. -/
def c6l1 : CanvasEntity :=
  { id := "l", type := "LINE"
    transform := ⟨2, 2, 1, 1, 0⟩
    props := [("width", .vNum 100), ("height", .vNum 100),
      ("color", .vStr "#64748b"), ("direction", .vStr "nw-se"),
      ("startConnectedId", .vStr "x"), ("startAnchor", .vStr "r"),
      ("start", .vPoint 2 2), ("end", .vPoint 102 102),
      ("endConnectedId", .vNull), ("endAnchor", .vNull)]
    metadata := [], visible := true, parentId := none }

/-- `anchorRect` after the pointer-up's selection change unmarks it. -/
def c6x1 : CanvasEntity :=
  { id := "x", type := "RECTANGLE"
    transform := ⟨0, 0, 1, 1, 0⟩
    props := [("width", .vNum 100), ("height", .vNum 100)]
    metadata := [("selected", .vBool false)], visible := true
    parentId := none }

/-- `c6l1` after the connector re-route triggered by that selection
change: start snapped to the rectangle's right anchor (100, 50). -/
def c6l2 : CanvasEntity :=
  { id := "l", type := "LINE"
    transform := ⟨100, 50, 1, 1, 0⟩
    props := [("width", .vNum 2), ("height", .vNum 52),
      ("color", .vStr "#64748b"), ("direction", .vStr "nw-se"),
      ("startConnectedId", .vStr "x"), ("startAnchor", .vStr "r"),
      ("start", .vPoint 100 50), ("end", .vPoint 102 102),
      ("endConnectedId", .vNull), ("endAnchor", .vNull)]
    metadata := [], visible := true, parentId := none }

/-- `c6l2` marked as the new sole selection. -/
def c6l3 : CanvasEntity :=
  { c6l2 with metadata := [("selected", .vBool true)] }

/-- A rectangle at the origin referenced by two connectors. -/
def cexX : CanvasEntity :=
  { id := "x", type := "RECTANGLE"
    transform := ⟨0, 0, 1, 1, 0⟩
    props := [("width", .vNum 100), ("height", .vNum 100)]
    metadata := [], visible := true, parentId := none }

/-- A line from `cexX`'s top anchor to `cexM`'s center anchor. -/
def cexL : CanvasEntity :=
  { id := "l", type := "LINE"
    transform := ⟨1, 1, 1, 1, 0⟩
    props := [("width", .vNum 1), ("height", .vNum 1),
      ("startConnectedId", .vStr "x"), ("startAnchor", .vStr "t"),
      ("endConnectedId", .vStr "m"), ("endAnchor", .vStr "c"),
      ("start", .vPoint 1 1), ("end", .vPoint 2 2)]
    metadata := [], visible := true, parentId := none }

/-- A second line, also start-connected to `cexX`, with a free end. -/
def cexM : CanvasEntity :=
  { id := "m", type := "LINE"
    transform := ⟨150, 150, 1, 1, 0⟩
    props := [("width", .vNum 10), ("height", .vNum 10),
      ("startConnectedId", .vStr "x"), ("startAnchor", .vStr "b"),
      ("endConnectedId", .vNull), ("endAnchor", .vNull),
      ("start", .vPoint 150 150), ("end", .vPoint 160 160)]
    metadata := [], visible := true, parentId := none }

/-- `cexX` moved to x = 200. -/
def cexX2 : CanvasEntity :=
  { id := "x", type := "RECTANGLE"
    transform := ⟨200, 0, 1, 1, 0⟩
    props := [("width", .vNum 100), ("height", .vNum 100)]
    metadata := [], visible := true, parentId := none }

/-- `cexL` as re-routed first: its end took `cexM`'s center anchor
(155, 155) computed from `cexM`'s pre-re-route box. -/
def cexL2 : CanvasEntity :=
  { id := "l", type := "LINE"
    transform := ⟨155, 0, 1, 1, 0⟩
    props := [("width", .vNum 95), ("height", .vNum 155),
      ("startConnectedId", .vStr "x"), ("startAnchor", .vStr "t"),
      ("endConnectedId", .vStr "m"), ("endAnchor", .vStr "c"),
      ("start", .vPoint 250 0), ("end", .vPoint 155 155)]
    metadata := [], visible := true, parentId := none }

/-- `cexM` as re-routed second: its own box moved to (160, 100)-(250, 160). -/
def cexM2 : CanvasEntity :=
  { id := "m", type := "LINE"
    transform := ⟨160, 100, 1, 1, 0⟩
    props := [("width", .vNum 90), ("height", .vNum 60),
      ("startConnectedId", .vStr "x"), ("startAnchor", .vStr "b"),
      ("endConnectedId", .vNull), ("endAnchor", .vNull),
      ("start", .vPoint 250 100), ("end", .vPoint 160 160)]
    metadata := [], visible := true, parentId := none }

/-- The store after moving `cexX` to x = 200 through the engine-level
update (scene write plus synchronous connector re-routing). -/
def c1Res : Store :=
  (engineUpdateObject engineRegistry [cexX, cexL, cexM] "x"
    { transform := some { x := some 200 } }).1

/-- `anchorRect` moved to x = 200. -/
def c1wX : CanvasEntity :=
  { id := "x", type := "RECTANGLE"
    transform := ⟨200, 0, 1, 1, 0⟩
    props := [("width", .vNum 100), ("height", .vNum 100)]
    metadata := [("selected", .vBool true)], visible := true
    parentId := none }

/-- `creatingLine` re-routed after that move: start snapped to the right
anchor (300, 50) of the moved rectangle, free end kept at (7, 7). -/
def c1wL : CanvasEntity :=
  { id := "l", type := "LINE"
    transform := ⟨7, 7, 1, 1, 0⟩
    props := [("width", .vNum 293), ("height", .vNum 43),
      ("color", .vStr "#64748b"), ("direction", .vStr "nw-se"),
      ("startConnectedId", .vStr "x"), ("startAnchor", .vStr "r"),
      ("start", .vPoint 300 50), ("end", .vPoint 7 7),
      ("endConnectedId", .vNull), ("endAnchor", .vNull)]
    metadata := [], visible := true, parentId := none }

/-- A two-listener bus: the first listener throws, the second returns. -/
def demoBus : EmitBus Nat :=
  [("evt", [fun _ => Except.error "boom", fun _ => Except.ok ()])]

/-! ## Basic lemmas: objects -/

theorem Obj.get_cons (k1 : String) (v1 : Value) (o : Obj) (k : String) :
    Obj.get ((k1, v1) :: o) k = if k1 = k then some v1 else o.get k := rfl

theorem Store.get_entry_cons (e : CanvasEntity) (s : Store) (id : String) :
    Store.get (e :: s) id = if e.id = id then some e else s.get id := rfl

theorem Obj.get_map_replace_self (o : Obj) (k : String) (v : Value)
    (h : o.any (fun p => p.1 = k) = true) :
    Obj.get (o.map (fun p => if p.1 = k then (k, v) else p)) k = some v := by
  induction o with
  | nil => simp at h
  | cons p o ih =>
    obtain ⟨k1, v1⟩ := p
    by_cases hp : k1 = k
    · simp [Obj.get_cons, hp]
    · have h' : o.any (fun p => p.1 = k) = true := by
        simpa [List.any_cons, hp] using h
      simpa [Obj.get_cons, hp] using ih h'

theorem Obj.get_map_replace_ne (o : Obj) (k k' : String) (v : Value)
    (h : k' ≠ k) :
    Obj.get (o.map (fun p => if p.1 = k then (k, v) else p)) k' = o.get k' := by
  have hk : ¬(k = k') := Ne.symm h
  induction o with
  | nil => simp
  | cons p o ih =>
    obtain ⟨k1, v1⟩ := p
    by_cases hp : k1 = k
    · have hp' : ¬(k1 = k') := by
        rw [hp]; exact hk
      simpa [Obj.get_cons, hp, hk, hp'] using ih
    · by_cases hq : k1 = k'
      · simp [Obj.get_cons, hp, hq, h]
      · simpa [Obj.get_cons, hp, hq] using ih

theorem Obj.get_append_no_left (o o2 : Obj) (k : String)
    (h : o.any (fun p => p.1 = k) = false) :
    Obj.get (o ++ o2) k = o2.get k := by
  induction o with
  | nil => simp
  | cons p o ih =>
    obtain ⟨k1, v1⟩ := p
    simp only [List.any_cons, Bool.or_eq_false_iff, decide_eq_false_iff_not] at h
    simpa [Obj.get_cons, h.1] using ih (by simpa using h.2)

theorem Obj.get_set_self (o : Obj) (k : String) (v : Value) :
    (o.set k v).get k = some v := by
  unfold Obj.set
  by_cases hc : o.any (fun p => p.1 = k)
  · simpa [hc] using Obj.get_map_replace_self o k v hc
  · have hc' : o.any (fun p => p.1 = k) = false := by
      cases hb : o.any (fun p => p.1 = k)
      · rfl
      · exact absurd hb hc
    simp only [hc', Bool.false_eq_true, if_false]
    rw [Obj.get_append_no_left o [(k, v)] k hc']
    simp [Obj.get_cons]

theorem Obj.get_append_single_ne (o : Obj) (k k' : String) (v : Value)
    (h : k' ≠ k) :
    Obj.get (o ++ [(k, v)]) k' = Obj.get o k' := by
  induction o with
  | nil => simp [Obj.get_cons, Obj.get, Ne.symm h]
  | cons p o ih =>
    obtain ⟨k1, v1⟩ := p
    by_cases hq : k1 = k'
    · simp [Obj.get_cons, hq]
    · simpa [Obj.get_cons, hq] using ih

theorem Obj.get_set_ne (o : Obj) (k k' : String) (v : Value) (h : k' ≠ k) :
    (o.set k v).get k' = o.get k' := by
  unfold Obj.set
  by_cases hc : o.any (fun p => p.1 = k)
  · simpa [hc] using Obj.get_map_replace_ne o k k' v h
  · have hc' : o.any (fun p => p.1 = k) = false := by
      cases hb : o.any (fun p => p.1 = k)
      · rfl
      · exact absurd hb hc
    simp only [hc', Bool.false_eq_true, if_false]
    exact Obj.get_append_single_ne o k k' v h

theorem Obj.get_merge_none (a b : Obj) (k : String) (h : b.get k = none) :
    (Obj.merge a b).get k = a.get k := by
  induction b generalizing a with
  | nil => rfl
  | cons p b ih =>
    obtain ⟨k1, v1⟩ := p
    have hp : ¬(k1 = k) := by
      by_contra hp
      simp [Obj.get_cons, hp] at h
    have hb : Obj.get b k = none := by
      simpa [Obj.get_cons, hp] using h
    show Obj.get (Obj.merge (Obj.set a k1 v1) b) k = Obj.get a k
    rw [ih (Obj.set a k1 v1) hb, Obj.get_set_ne a k1 k v1 (Ne.symm hp)]

theorem Obj.get_not_mem_keys (b : Obj) (k : String)
    (h : k ∉ b.map Prod.fst) : b.get k = none := by
  induction b with
  | nil => rfl
  | cons p b ih =>
    obtain ⟨k1, v1⟩ := p
    simp only [List.map_cons, List.mem_cons, not_or] at h
    have : ¬(k1 = k) := Ne.symm h.1
    simpa [Obj.get_cons, this] using ih h.2

theorem Obj.get_merge_some : ∀ (b a : Obj) (k : String) (v : Value),
    (b.map Prod.fst).Nodup → Obj.get b k = some v →
    (Obj.merge a b).get k = some v := by
  intro b
  induction b with
  | nil =>
    intro a k v _ h
    simp [Obj.get] at h
  | cons p b ih =>
    intro a k v hnd h
    obtain ⟨k1, v1⟩ := p
    by_cases hp : k1 = k
    · have hv : v = v1 := by
        simp [Obj.get_cons, hp] at h
        exact h.symm
      have hb : Obj.get b k = none := by
        apply Obj.get_not_mem_keys
        rw [← hp]
        exact (List.nodup_cons.mp hnd).1
      show Obj.get (Obj.merge (Obj.set a k1 v1) b) k = some v
      rw [Obj.get_merge_none _ b k hb, hp, hv, Obj.get_set_self]
    · have hb : Obj.get b k = some v := by
        simpa [Obj.get_cons, hp] using h
      exact ih (Obj.set a k1 v1) k v (List.nodup_cons.mp hnd).2 hb

theorem Obj.any_key_set_self (o : Obj) (k : String) (v : Value) :
    (o.set k v).any (fun p => p.1 = k) = true := by
  unfold Obj.set
  by_cases hc : o.any (fun p => p.1 = k)
  · simp only [hc, if_true]
    induction o with
    | nil => simp at hc
    | cons p o ih =>
      obtain ⟨k1, v1⟩ := p
      by_cases hp : k1 = k
      · simp [hp]
      · have : o.any (fun p => p.1 = k) = true := by
          simpa [List.any_cons, hp] using hc
        simpa [List.any_cons, hp] using ih this
  · have hc' : o.any (fun p => p.1 = k) = false := by
      cases hb : o.any (fun p => p.1 = k)
      · rfl
      · exact absurd hb hc
    simp [hc']

/-- Every binding of key `k` in `o.set k v` is exactly `(k, v)`. -/
theorem Obj.set_key_entry (o : Obj) (k : String) (v : Value) :
    ∀ p ∈ o.set k v, p.1 = k → p = (k, v) := by
  unfold Obj.set
  by_cases hc : o.any (fun p => p.1 = k)
  · simp only [hc, if_true]
    intro p hp hk
    rcases List.mem_map.mp hp with ⟨q, _, hqe⟩
    by_cases hq1 : q.1 = k
    · rw [← hqe]
      simp [hq1]
    · rw [← hqe] at hk
      simp [hq1] at hk
  · have hc' : o.any (fun p => p.1 = k) = false := by
      cases hb : o.any (fun p => p.1 = k)
      · rfl
      · exact absurd hb hc
    simp only [hc', Bool.false_eq_true, if_false]
    intro p hp hk
    rcases List.mem_append.mp hp with hin | hin
    · exfalso
      have : (o.any (fun p => p.1 = k)) = true :=
        List.any_eq_true.mpr ⟨p, hin, by simp [hk]⟩
      rw [this] at hc'
      cases hc'
    · simpa using hin

/-- Replacing every binding of `k` by `(k, v)` is the identity when every
`k`-binding already is `(k, v)`. -/
theorem Obj.map_replace_self_of_fixed : ∀ (l : Obj) (k : String) (v : Value),
    (∀ p ∈ l, p.1 = k → p = (k, v)) →
    l.map (fun p => if p.1 = k then (k, v) else p) = l := by
  intro l k v
  induction l with
  | nil =>
    intro _
    rfl
  | cons p l ih =>
    intro hfix
    obtain ⟨k1, v1⟩ := p
    simp only [List.map_cons]
    by_cases hp : k1 = k
    · rw [if_pos hp, hfix (k1, v1) (by simp) hp]
      congr 1
      exact ih (fun q hq hqk => hfix q (by simp [hq]) hqk)
    · rw [if_neg hp]
      congr 1
      exact ih (fun q hq hqk => hfix q (by simp [hq]) hqk)

/-- Setting `k` to `v` is a no-op when every `k`-binding is already
`(k, v)` and the key is present. -/
theorem Obj.set_eq_of_fixed (l : Obj) (k : String) (v : Value)
    (hmem : l.any (fun p => p.1 = k) = true)
    (hfix : ∀ p ∈ l, p.1 = k → p = (k, v)) :
    Obj.set l k v = l := by
  unfold Obj.set
  rw [hmem]
  simp only [if_true]
  exact Obj.map_replace_self_of_fixed l k v hfix

/-- Re-asserting an already-set key is a no-op. -/
theorem Obj.set_set_same (o : Obj) (k : String) (v : Value) :
    (o.set k v).set k v = o.set k v :=
  Obj.set_eq_of_fixed (o.set k v) k v (Obj.any_key_set_self o k v)
    (Obj.set_key_entry o k v)

/-- Merging a single binding is the same as setting it. -/
theorem Obj.merge_single (a : Obj) (k : String) (v : Value) :
    Obj.merge a [(k, v)] = a.set k v := rfl

/-! ## Basic lemmas: store -/

theorem applyUpdates_id (e : CanvasEntity) (u : EntityUpdates) :
    (applyUpdates e u).id = e.id := rfl

theorem applyUpdates_type (e : CanvasEntity) (u : EntityUpdates) :
    (applyUpdates e u).type = e.type := rfl

theorem applyUpdates_metadata_none (e : CanvasEntity) (u : EntityUpdates)
    (h : u.metadata = none) : (applyUpdates e u).metadata = e.metadata := by
  simp [applyUpdates, h]

theorem Store.get_some_mem (s : Store) (id : String) (e : CanvasEntity)
    (h : Store.get s id = some e) : e ∈ s ∧ e.id = id := by
  induction s with
  | nil => cases h
  | cons x s ih =>
    by_cases hx : x.id = id
    · rw [Store.get_entry_cons, if_pos hx] at h
      have hxe : x = e := Option.some_inj.mp h
      constructor
      · rw [← hxe]
        exact List.mem_cons_self x s
      · rw [← hxe]
        exact hx
    · rw [Store.get_entry_cons, if_neg hx] at h
      rcases ih h with ⟨hm, he⟩
      exact ⟨List.mem_cons_of_mem x hm, he⟩

theorem Store.get_none_iff (s : Store) (id : String) :
    Store.get s id = none ↔ ∀ e ∈ s, e.id ≠ id := by
  induction s with
  | nil => simp [Store.get]
  | cons x s ih =>
    by_cases hx : x.id = id
    · simp [Store.get_entry_cons, hx]
    · simp [Store.get_entry_cons, hx, ih]

theorem Store.get_mem_nodup (s : Store) (e : CanvasEntity)
    (hnd : (idsOf s).Nodup) (h : e ∈ s) : Store.get s e.id = some e := by
  induction s with
  | nil => cases h
  | cons x s ih =>
    rcases List.mem_cons.mp h with rfl | hm
    · rw [Store.get_entry_cons, if_pos rfl]
    · have hx : x.id ≠ e.id := by
        intro hx
        have : e.id ∈ idsOf s := List.mem_map.mpr ⟨e, hm, rfl⟩
        rw [← hx] at this
        exact (List.nodup_cons.mp hnd).1 this
      rw [Store.get_entry_cons, if_neg hx]
      exact ih (List.nodup_cons.mp hnd).2 hm

theorem Store.get_replace_self (s : Store) (id : String)
    (e e' : CanvasEntity) (hid : e'.id = id) (h : Store.get s id = some e) :
    Store.get (s.map (fun x => if x.id = id then e' else x)) id = some e' := by
  induction s with
  | nil => cases h
  | cons x s ih =>
    by_cases hx : x.id = id
    · simp only [List.map_cons, if_pos hx]
      rw [Store.get_entry_cons, if_pos hid]
    · simp only [List.map_cons, if_neg hx]
      rw [Store.get_entry_cons, if_neg hx]
      rw [Store.get_entry_cons, if_neg hx] at h
      exact ih h

theorem Store.get_replace_ne (s : Store) (id c : String)
    (e' : CanvasEntity) (hid : e'.id = id) (hc : c ≠ id) :
    Store.get (s.map (fun x => if x.id = id then e' else x)) c =
      Store.get s c := by
  induction s with
  | nil => rfl
  | cons x s ih =>
    by_cases hx : x.id = id
    · have h1 : e'.id ≠ c := by
        rw [hid]
        exact Ne.symm hc
      have h2 : x.id ≠ c := by
        rw [hx]
        exact Ne.symm hc
      simp only [List.map_cons, if_pos hx]
      rw [Store.get_entry_cons, if_neg h1, Store.get_entry_cons, if_neg h2]
      exact ih
    · simp only [List.map_cons, if_neg hx]
      rw [Store.get_entry_cons, Store.get_entry_cons]
      by_cases hq : x.id = c
      · rw [if_pos hq, if_pos hq]
      · rw [if_neg hq, if_neg hq]
        exact ih

theorem idsOf_map_replace (s : Store) (id : String) (e' : CanvasEntity)
    (hid : e'.id = id) :
    idsOf (s.map (fun x => if x.id = id then e' else x)) = idsOf s := by
  induction s with
  | nil => rfl
  | cons x s ih =>
    by_cases hx : x.id = id
    · simp only [idsOf, List.map_cons, if_pos hx] at ih ⊢
      rw [hid, hx]
      exact congrArg (List.cons id) ih
    · simp only [idsOf, List.map_cons, if_neg hx] at ih ⊢
      exact congrArg (List.cons x.id) ih

theorem sceneUpdateObject_unknown (s : Store) (id : String) (u : EntityUpdates)
    (h : Store.get s id = none) : sceneUpdateObject s id u = (s, []) := by
  simp [sceneUpdateObject, h]

theorem sceneUpdateObject_known (s : Store) (id : String) (u : EntityUpdates)
    (e : CanvasEntity) (h : Store.get s id = some e) :
    sceneUpdateObject s id u =
      (s.map (fun x => if x.id = id then applyUpdates e u else x),
       [.updated e (applyUpdates e u)]) := by
  have hm := Store.get_some_mem s id e h
  have hany : (s.any (fun x => x.id = (applyUpdates e u).id)) = true := by
    apply List.any_eq_true.mpr
    exact ⟨e, hm.1, by simp [applyUpdates_id, hm.2]⟩
  simp only [sceneUpdateObject, h, Store.setEntry, hany, if_true]
  have hid : (applyUpdates e u).id = id := by
    rw [applyUpdates_id]
    exact hm.2
  rw [hid]

theorem sceneDeleteObject_unknown (s : Store) (id : String)
    (h : Store.get s id = none) : sceneDeleteObject s id = (s, []) := by
  simp [sceneDeleteObject, h]

theorem sceneDeleteObject_known (s : Store) (id : String) (e : CanvasEntity)
    (h : Store.get s id = some e) :
    sceneDeleteObject s id = (s.del id, [.deleted e]) := by
  simp [sceneDeleteObject, h]

theorem Store.get_del_self (s : Store) (id : String) :
    Store.get (s.del id) id = none := by
  rw [Store.get_none_iff]
  intro e he
  have := List.of_mem_filter he
  simpa using this

theorem Store.get_del_ne (s : Store) (id c : String) (hc : c ≠ id) :
    Store.get (s.del id) c = Store.get s c := by
  induction s with
  | nil => rfl
  | cons x s ih =>
    unfold Store.del at ih ⊢
    rw [List.filter_cons]
    by_cases hx : x.id = id
    · have hxc : ¬(x.id = c) := by
        rw [hx]
        exact Ne.symm hc
      have hcond : (decide (x.id ≠ id)) = false := by
        simp [hx]
      rw [hcond]
      simp only [Bool.false_eq_true, if_false]
      conv_rhs => rw [Store.get_entry_cons, if_neg hxc]
      exact ih
    · have hcond : (decide (x.id ≠ id)) = true := by
        simp [hx]
      rw [hcond]
      simp only [if_true]
      rw [Store.get_entry_cons, Store.get_entry_cons]
      by_cases hq : x.id = c
      · rw [if_pos hq, if_pos hq]
      · rw [if_neg hq, if_neg hq]
        exact ih

/-! ## Connector re-routing: simulation lemmas -/

theorem GeoSim.rfl (a : CanvasEntity) : GeoSim a a :=
  ⟨Eq.refl _, Eq.refl _, Eq.refl _, fun _ => Eq.refl _⟩

theorem GeoSim.trans {a b c : CanvasEntity} (h1 : GeoSim a b)
    (h2 : GeoSim b c) : GeoSim a c := by
  obtain ⟨i1, t1, m1, u1⟩ := h1
  obtain ⟨i2, t2, m2, u2⟩ := h2
  refine ⟨i2.trans i1, t2.trans t1, m2.trans m1, fun hnc => ?_⟩
  have hb : isConnectorType b.type = false := by
    rw [t1]
    exact hnc
  rw [u2 hb, u1 hnc]

theorem forall2_geoSim_refl (s : Store) : List.Forall₂ GeoSim s s :=
  List.forall₂_same.mpr (fun a _ => GeoSim.rfl a)

theorem forall2_geoSim_trans {s t u : Store}
    (h1 : List.Forall₂ GeoSim s t) (h2 : List.Forall₂ GeoSim t u) :
    List.Forall₂ GeoSim s u := by
  induction h1 generalizing u with
  | nil =>
    cases h2
    exact List.Forall₂.nil
  | cons hab h1' ih =>
    cases h2 with
    | cons hbc h2' => exact List.Forall₂.cons (hab.trans hbc) (ih h2')

theorem forall2_geoSim_idsOf {s t : Store}
    (h : List.Forall₂ GeoSim s t) : idsOf t = idsOf s := by
  induction h with
  | nil => rfl
  | cons hab h ih =>
    simp only [idsOf, List.map_cons] at ih ⊢
    rw [hab.1, ih]

theorem forall2_geoSim_get_none {s t : Store}
    (h : List.Forall₂ GeoSim s t) (c : String)
    (hn : Store.get s c = none) : Store.get t c = none := by
  induction h with
  | nil => rfl
  | cons hab h ih =>
    rename_i a b l1 l2
    by_cases hac : a.id = c
    · rw [Store.get_entry_cons, if_pos hac] at hn
      cases hn
    · rw [Store.get_entry_cons, if_neg hac] at hn
      have hbc : ¬(b.id = c) := by
        rw [hab.1]
        exact hac
      rw [Store.get_entry_cons, if_neg hbc]
      exact ih hn

theorem forall2_geoSim_get_some {s t : Store}
    (h : List.Forall₂ GeoSim s t) (c : String) (a : CanvasEntity)
    (ha : Store.get s c = some a) :
    ∃ b, Store.get t c = some b ∧ GeoSim a b := by
  induction h with
  | nil => cases ha
  | cons hab h ih =>
    rename_i x y l1 l2
    by_cases hac : x.id = c
    · rw [Store.get_entry_cons, if_pos hac] at ha
      have hxa : x = a := Option.some_inj.mp ha
      have hyc : y.id = c := by
        rw [hab.1]
        exact hac
      refine ⟨y, ?_, hxa ▸ hab⟩
      rw [Store.get_entry_cons, if_pos hyc]
    · rw [Store.get_entry_cons, if_neg hac] at ha
      have hyc : ¬(y.id = c) := by
        rw [hab.1]
        exact hac
      rcases ih ha with ⟨b, hb, hR⟩
      refine ⟨b, ?_, hR⟩
      rw [Store.get_entry_cons, if_neg hyc]
      exact hb

theorem map_replace_id_of_no_id (s : Store) (id : String)
    (e' : CanvasEntity) (h : ∀ y ∈ s, ¬(y.id = id)) :
    s.map (fun x => if x.id = id then e' else x) = s := by
  induction s with
  | nil => rfl
  | cons x s ih =>
    rw [List.map_cons, if_neg (h x (by simp)),
      ih (fun y hy => h y (by simp [hy]))]

theorem forall2_geoSim_map_replace (s : Store) (id : String)
    (e e' : CanvasEntity) (hnd : (idsOf s).Nodup)
    (h : Store.get s id = some e) (hR : GeoSim e e') :
    List.Forall₂ GeoSim s (s.map (fun x => if x.id = id then e' else x)) := by
  induction s with
  | nil => exact List.Forall₂.nil
  | cons x s ih =>
    by_cases hx : x.id = id
    · rw [Store.get_entry_cons, if_pos hx] at h
      have hxe : x = e := Option.some_inj.mp h
      rw [List.map_cons, if_pos hx]
      refine List.Forall₂.cons (hxe ▸ hR) ?_
      have hnone : ∀ y ∈ s, ¬(y.id = id) := by
        intro y hy hyid
        have hmem : y.id ∈ idsOf s := List.mem_map.mpr ⟨y, hy, rfl⟩
        rw [hyid, ← hx] at hmem
        exact (List.nodup_cons.mp hnd).1 hmem
      rw [map_replace_id_of_no_id s id e' hnone]
      exact forall2_geoSim_refl s
    · rw [Store.get_entry_cons, if_neg hx] at h
      rw [List.map_cons, if_neg hx]
      exact List.Forall₂.cons (GeoSim.rfl x) (ih (List.nodup_cons.mp hnd).2 h)

theorem ulcUpdates_metadata (reg : List ObjectTypeDefinition) (store : Store)
    (line : CanvasEntity) : (ulcUpdates reg store line).metadata = none := rfl

theorem updateLineConnections_forall2 (reg : List ObjectTypeDefinition)
    (acc : Store) (line : CanvasEntity) (hnd : (idsOf acc).Nodup)
    (hconn : ∀ e, Store.get acc line.id = some e →
      isConnectorType e.type = true) :
    List.Forall₂ GeoSim acc (updateLineConnections reg acc line).1 := by
  unfold updateLineConnections
  cases h : Store.get acc line.id with
  | none =>
    rw [sceneUpdateObject_unknown _ _ _ h]
    exact forall2_geoSim_refl acc
  | some e =>
    rw [sceneUpdateObject_known _ _ _ e h]
    apply forall2_geoSim_map_replace acc line.id e _ hnd h
    refine ⟨Eq.refl _, Eq.refl _,
      applyUpdates_metadata_none e _ (ulcUpdates_metadata reg acc line),
      fun hnc => ?_⟩
    rw [hconn e h] at hnc
    cases hnc

theorem react_fold_forall2 (reg : List ObjectTypeDefinition) (st1 : Store)
    (hnd : (idsOf st1).Nodup) :
    ∀ (ls : List CanvasEntity),
    (∀ L ∈ ls, L ∈ st1 ∧ isConnectorType L.type = true) →
    ∀ acc : Store × List SceneEvent, List.Forall₂ GeoSim st1 acc.1 →
    List.Forall₂ GeoSim st1
      (ls.foldl (fun acc line =>
        let r := updateLineConnections reg acc.1 line
        (r.1, acc.2 ++ r.2)) acc).1 := by
  intro ls
  induction ls with
  | nil =>
    intro _ acc hacc
    exact hacc
  | cons L ls ih =>
    intro hl acc hacc
    rw [List.foldl_cons]
    apply ih (fun L2 hL2 => hl L2 (by simp [hL2]))
    have hndacc : (idsOf acc.1).Nodup := by
      rw [forall2_geoSim_idsOf hacc]
      exact hnd
    have hLst := hl L (by simp)
    have hgetL : Store.get st1 L.id = some L :=
      Store.get_mem_nodup st1 L hnd hLst.1
    have hconn : ∀ e, Store.get acc.1 L.id = some e →
        isConnectorType e.type = true := by
      intro e he
      rcases forall2_geoSim_get_some hacc L.id L hgetL with ⟨b, hb, hRb⟩
      have hbe : b = e := Option.some_inj.mp (hb.symm.trans he)
      rw [← hbe, hRb.2.1]
      exact hLst.2
    exact forall2_geoSim_trans hacc
      (updateLineConnections_forall2 reg acc.1 L hndacc hconn)

theorem connectionReact_forall2 (reg : List ObjectTypeDefinition)
    (st : Store) (ent : CanvasEntity) (hnd : (idsOf st).Nodup) :
    List.Forall₂ GeoSim st (connectionReact reg st ent).1 := by
  unfold connectionReact
  by_cases hc : isConnectorType ent.type = true
  · rw [if_pos hc]
    exact forall2_geoSim_refl st
  · rw [if_neg hc]
    apply react_fold_forall2 reg st hnd
    · intro L hL
      have hmem := List.mem_filter.mp hL
      refine ⟨hmem.1, ?_⟩
      have := hmem.2
      exact (Bool.and_eq_true _ _ |>.mp this).1
    · exact forall2_geoSim_refl st

/-! ## Engine-level update: characterization -/

theorem engineUpdateObject_unknown (reg : List ObjectTypeDefinition)
    (store : Store) (id : String) (u : EntityUpdates)
    (h : Store.get store id = none) :
    engineUpdateObject reg store id u = (store, []) := by
  simp [engineUpdateObject, h]

theorem Store.setEntry_eq_map (s : Store) (e' : CanvasEntity)
    (x : CanvasEntity) (hx : x ∈ s) (hid : x.id = e'.id) :
    s.setEntry e' = s.map (fun y => if y.id = e'.id then e' else y) := by
  unfold Store.setEntry
  have hany : (s.any (fun y => y.id = e'.id)) = true :=
    List.any_eq_true.mpr ⟨x, hx, by simp [hid]⟩
  rw [hany]
  simp

theorem engineUpdateObject_known (reg : List ObjectTypeDefinition)
    (store : Store) (id : String) (u : EntityUpdates) (e : CanvasEntity)
    (h : Store.get store id = some e) :
    (engineUpdateObject reg store id u).1 =
      (connectionReact reg
        (store.map (fun x => if x.id = id then applyUpdates e u else x))
        (applyUpdates e u)).1 := by
  have hm := Store.get_some_mem store id e h
  have hid : (applyUpdates e u).id = id := by
    rw [applyUpdates_id]
    exact hm.2
  simp only [engineUpdateObject, h]
  rw [Store.setEntry_eq_map store (applyUpdates e u) e hm.1
    (by rw [applyUpdates_id])]
  rw [hid]

theorem engineUpdate_get_self (reg : List ObjectTypeDefinition)
    (store : Store) (id : String) (u : EntityUpdates) (e : CanvasEntity)
    (hnd : (idsOf store).Nodup) (h : Store.get store id = some e) :
    Store.get (engineUpdateObject reg store id u).1 id =
      some (applyUpdates e u) := by
  rw [engineUpdateObject_known reg store id u e h]
  have hid : (applyUpdates e u).id = id := by
    rw [applyUpdates_id]
    exact (Store.get_some_mem store id e h).2
  have hnd1 : (idsOf (store.map (fun x => if x.id = id then applyUpdates e u else x))).Nodup := by
    rw [idsOf_map_replace store id _ hid]
    exact hnd
  have hget1 : Store.get (store.map (fun x => if x.id = id then applyUpdates e u else x)) id =
      some (applyUpdates e u) :=
    Store.get_replace_self store id e _ hid h
  by_cases hc : isConnectorType (applyUpdates e u).type = true
  · unfold connectionReact
    rw [if_pos hc]
    exact hget1
  · have hsim := connectionReact_forall2 reg _ (applyUpdates e u) hnd1
    rcases forall2_geoSim_get_some hsim id _ hget1 with ⟨b, hb, hR⟩
    have : b = applyUpdates e u := hR.2.2.2 (by
      cases hcc : isConnectorType (applyUpdates e u).type
      · rfl
      · exact absurd hcc hc)
    rw [this] at hb
    exact hb

theorem engineUpdate_get_ne_none (reg : List ObjectTypeDefinition)
    (store : Store) (id : String) (u : EntityUpdates) (c : String)
    (hnd : (idsOf store).Nodup) (hc : c ≠ id)
    (h : Store.get store c = none) :
    Store.get (engineUpdateObject reg store id u).1 c = none := by
  cases htarget : Store.get store id with
  | none =>
    rw [engineUpdateObject_unknown reg store id u htarget]
    exact h
  | some e =>
    rw [engineUpdateObject_known reg store id u e htarget]
    have hid : (applyUpdates e u).id = id := by
      rw [applyUpdates_id]
      exact (Store.get_some_mem store id e htarget).2
    have hnd1 : (idsOf (store.map (fun x => if x.id = id then applyUpdates e u else x))).Nodup := by
      rw [idsOf_map_replace store id _ hid]
      exact hnd
    have hget1 : Store.get (store.map (fun x => if x.id = id then applyUpdates e u else x)) c = none := by
      rw [Store.get_replace_ne store id c _ hid hc]
      exact h
    exact forall2_geoSim_get_none
      (connectionReact_forall2 reg _ (applyUpdates e u) hnd1) c hget1

theorem engineUpdate_get_ne_some (reg : List ObjectTypeDefinition)
    (store : Store) (id : String) (u : EntityUpdates) (c : String)
    (a : CanvasEntity) (hnd : (idsOf store).Nodup) (hc : c ≠ id)
    (h : Store.get store c = some a) :
    ∃ b, Store.get (engineUpdateObject reg store id u).1 c = some b ∧
      GeoSim a b := by
  cases htarget : Store.get store id with
  | none =>
    rw [engineUpdateObject_unknown reg store id u htarget]
    exact ⟨a, h, GeoSim.rfl a⟩
  | some e =>
    rw [engineUpdateObject_known reg store id u e htarget]
    have hid : (applyUpdates e u).id = id := by
      rw [applyUpdates_id]
      exact (Store.get_some_mem store id e htarget).2
    have hnd1 : (idsOf (store.map (fun x => if x.id = id then applyUpdates e u else x))).Nodup := by
      rw [idsOf_map_replace store id _ hid]
      exact hnd
    have hget1 : Store.get (store.map (fun x => if x.id = id then applyUpdates e u else x)) c = some a := by
      rw [Store.get_replace_ne store id c _ hid hc]
      exact h
    exact forall2_geoSim_get_some
      (connectionReact_forall2 reg _ (applyUpdates e u) hnd1) c a hget1

theorem engineUpdate_idsOf (reg : List ObjectTypeDefinition) (store : Store)
    (id : String) (u : EntityUpdates) (hnd : (idsOf store).Nodup) :
    idsOf (engineUpdateObject reg store id u).1 = idsOf store := by
  cases htarget : Store.get store id with
  | none =>
    rw [engineUpdateObject_unknown reg store id u htarget]
  | some e =>
    rw [engineUpdateObject_known reg store id u e htarget]
    have hid : (applyUpdates e u).id = id := by
      rw [applyUpdates_id]
      exact (Store.get_some_mem store id e htarget).2
    have hnd1 : (idsOf (store.map (fun x => if x.id = id then applyUpdates e u else x))).Nodup := by
      rw [idsOf_map_replace store id _ hid]
      exact hnd
    rw [forall2_geoSim_idsOf (connectionReact_forall2 reg _ (applyUpdates e u) hnd1)]
    exact idsOf_map_replace store id _ hid

/-! ## Selection module: store characterization -/

theorem selMeta_metadata (e : CanvasEntity) (b : Bool) :
    (applyUpdates e (selMetaUpdate b)).metadata =
      e.metadata.set "selected" (.vBool b) := by
  simp only [applyUpdates, selMetaUpdate]
  exact Obj.merge_single e.metadata "selected" (.vBool b)

/-- Effect of the selection module un/marking a list of ids through
`updateObject(sid, { metadata: { selected: b } })`: ids and types are
preserved and exactly the listed (present) ids get their `selected`
metadata key overwritten; everything else about other entities evolves
only by connector re-routing. -/
theorem foldSel_char (reg : List ObjectTypeDefinition) (b : Bool) :
    ∀ (sel : List String) (s : Store), (idsOf s).Nodup →
    (idsOf (sel.foldl (fun st sid =>
        (engineUpdateObject reg st sid (selMetaUpdate b)).1) s) = idsOf s) ∧
    (∀ c, Store.get s c = none →
      Store.get (sel.foldl (fun st sid =>
        (engineUpdateObject reg st sid (selMetaUpdate b)).1) s) c = none) ∧
    (∀ c a, Store.get s c = some a →
      ∃ a2, Store.get (sel.foldl (fun st sid =>
          (engineUpdateObject reg st sid (selMetaUpdate b)).1) s) c = some a2 ∧
        a2.id = a.id ∧ a2.type = a.type ∧
        a2.metadata = (if c ∈ sel
          then a.metadata.set "selected" (.vBool b) else a.metadata)) := by
  intro sel
  induction sel with
  | nil =>
    intro s hnd
    refine ⟨rfl, fun c h => h, fun c a h => ⟨a, h, rfl, rfl, by simp⟩⟩
  | cons sid sel ih =>
    intro s hnd
    rw [List.foldl_cons]
    have hnd1 : (idsOf (engineUpdateObject reg s sid (selMetaUpdate b)).1).Nodup := by
      rw [engineUpdate_idsOf reg s sid _ hnd]
      exact hnd
    rcases ih (engineUpdateObject reg s sid (selMetaUpdate b)).1 hnd1 with
      ⟨hids, hnone, hsome⟩
    refine ⟨by rw [hids, engineUpdate_idsOf reg s sid _ hnd], ?_, ?_⟩
    · intro c h
      apply hnone
      by_cases hc : c = sid
      · subst hc
        cases htarget : Store.get s c with
        | none =>
          rw [engineUpdateObject_unknown reg s c _ htarget]
          exact h
        | some e =>
          rw [htarget] at h
          cases h
      · exact engineUpdate_get_ne_none reg s sid _ c hnd hc h
    · intro c a h
      by_cases hc : c = sid
      · subst hc
        have hstep := engineUpdate_get_self reg s c (selMetaUpdate b) a hnd h
        rcases hsome c _ hstep with ⟨a2, hget2, hid2, hty2, hmeta2⟩
        refine ⟨a2, hget2, by rw [hid2, applyUpdates_id],
          by rw [hty2, applyUpdates_type], ?_⟩
        rw [if_pos (List.mem_cons_self c sel)]
        by_cases hmem : c ∈ sel
        · rw [hmeta2, if_pos hmem, selMeta_metadata a b, Obj.set_set_same]
        · rw [hmeta2, if_neg hmem, selMeta_metadata a b]
      · rcases engineUpdate_get_ne_some reg s sid _ c a hnd hc h with
          ⟨a1, hget1, hR⟩
        rcases hsome c a1 hget1 with ⟨a2, hget2, hid2, hty2, hmeta2⟩
        refine ⟨a2, hget2, by rw [hid2, hR.1], by rw [hty2, hR.2.1], ?_⟩
        by_cases hmem : c ∈ sel
        · rw [if_pos (List.mem_cons_of_mem sid hmem), hmeta2, if_pos hmem,
            hR.2.2.1]
        · have hnotc : c ∉ sid :: sel := by
            simp [hc, hmem]
          rw [if_neg hnotc, hmeta2, if_neg hmem, hR.2.2.1]

/-! ## The selection-metadata mirror invariant -/

/-- The selection-mirror invariant: store ids are a valid Map key set,
the selected-id set is duplicate-free, and an entity's
`metadata.selected` is truthy exactly when its id is selected. -/
def MirrorInv (s : EngineScene) : Prop :=
  (idsOf s.store).Nodup ∧ s.selected.Nodup ∧
  ∀ e ∈ s.store, (truthyOpt (Obj.get e.metadata "selected") = true ↔
    e.id ∈ s.selected)

theorem truthy_set_bool (m : Obj) (b : Bool) :
    truthyOpt (Obj.get (m.set "selected" (.vBool b)) "selected") = b := by
  rw [Obj.get_set_self]
  cases b <;> rfl

theorem mirrorInv_clearFold (reg : List ObjectTypeDefinition)
    (s : EngineScene) (hinv : MirrorInv s) :
    MirrorInv ⟨(s.selected.foldl (fun st sid =>
      (engineUpdateObject reg st sid (selMetaUpdate false)).1) s.store), []⟩ := by
  obtain ⟨hnd, hsel, hmirror⟩ := hinv
  rcases foldSel_char reg false s.selected s.store hnd with ⟨hids, _, hsome⟩
  refine ⟨by rw [hids]; exact hnd, List.nodup_nil, ?_⟩
  intro e he
  simp only [List.not_mem_nil, iff_false]
  intro htruthy
  have hnd2 : (idsOf (s.selected.foldl (fun st sid =>
      (engineUpdateObject reg st sid (selMetaUpdate false)).1) s.store)).Nodup := by
    rw [hids]
    exact hnd
  have hgete := Store.get_mem_nodup _ e hnd2 he
  cases hget0 : Store.get s.store e.id with
  | none =>
    rcases foldSel_char reg false s.selected s.store hnd with ⟨_, hnone, _⟩
    rw [hnone e.id hget0] at hgete
    cases hgete
  | some a =>
    rcases hsome e.id a hget0 with ⟨a2, hget2, _, _, hmeta2⟩
    have ha2e : a2 = e := Option.some_inj.mp (hget2.symm.trans hgete)
    by_cases hmem : e.id ∈ s.selected
    · rw [if_pos hmem] at hmeta2
      rw [← ha2e, hmeta2, truthy_set_bool] at htruthy
      cases htruthy
    · rw [if_neg hmem] at hmeta2
      have hamem := Store.get_some_mem s.store e.id a hget0
      have := (hmirror a hamem.1).mp
      rw [← ha2e, hmeta2] at htruthy
      exact hmem (hamem.2 ▸ this htruthy)

theorem selectedSetAdd_nodup (sel : List String) (id : String)
    (h : sel.Nodup) : (selectedSetAdd sel id).Nodup := by
  unfold selectedSetAdd
  by_cases hmem : id ∈ sel
  · rw [if_pos hmem]
    exact h
  · rw [if_neg hmem]
    simp [List.nodup_append, h, hmem]

theorem mirrorInv_select (reg : List ObjectTypeDefinition) (s : EngineScene)
    (id : String) (multi : Bool) (hinv : MirrorInv s) :
    MirrorInv (selectOp reg s id multi) := by
  have key : ∀ t : EngineScene, MirrorInv t →
      MirrorInv ⟨(engineUpdateObject reg t.store id (selMetaUpdate true)).1,
        selectedSetAdd t.selected id⟩ := by
    intro t hti
    obtain ⟨hnd, hsel, hmirror⟩ := hti
    have hnd2 : (idsOf (engineUpdateObject reg t.store id (selMetaUpdate true)).1).Nodup := by
      rw [engineUpdate_idsOf reg t.store id _ hnd]
      exact hnd
    refine ⟨hnd2, selectedSetAdd_nodup t.selected id hsel, ?_⟩
    intro e he
    have hgete := Store.get_mem_nodup _ e hnd2 he
    have hmemAdd : ∀ c, c ∈ selectedSetAdd t.selected id ↔
        (c ∈ t.selected ∨ c = id) := by
      intro c
      unfold selectedSetAdd
      by_cases hmem : id ∈ t.selected
      · rw [if_pos hmem]
        constructor
        · intro hcl
          exact Or.inl hcl
        · intro hcl
          rcases hcl with hcl | rfl
          · exact hcl
          · exact hmem
      · rw [if_neg hmem]
        simp [List.mem_append]
    by_cases hce : e.id = id
    · cases hget0 : Store.get t.store id with
      | none =>
        rw [engineUpdateObject_unknown reg t.store id _ hget0] at hgete
        have hmem := Store.get_some_mem t.store e.id e hgete
        rw [Store.get_none_iff] at hget0
        exact absurd hce (hget0 e hmem.1)
      | some a =>
        have hstep := engineUpdate_get_self reg t.store id (selMetaUpdate true) a hnd hget0
        rw [hce] at hgete
        have hea : e = applyUpdates a (selMetaUpdate true) :=
          Option.some_inj.mp (hgete.symm.trans hstep)
        have hmeta : truthyOpt (Obj.get e.metadata "selected") = true := by
          rw [hea, selMeta_metadata a true, truthy_set_bool]
        rw [hmeta]
        constructor
        · intro _
          rw [hce]
          exact (hmemAdd id).mpr (Or.inr rfl)
        · intro _
          rfl
    · cases hget0 : Store.get t.store e.id with
      | none =>
        exfalso
        have := engineUpdate_get_ne_none reg t.store id (selMetaUpdate true)
          e.id hnd hce hget0
        rw [this] at hgete
        cases hgete
      | some a =>
        rcases engineUpdate_get_ne_some reg t.store id (selMetaUpdate true)
          e.id a hnd hce hget0 with
          ⟨a1, hget1, hR⟩
        have hea : e = a1 := Option.some_inj.mp (hgete.symm.trans hget1)
        have hamem := Store.get_some_mem t.store e.id a hget0
        have hmeta : Obj.get e.metadata "selected" = Obj.get a.metadata "selected" := by
          rw [hea, hR.2.2.1]
        rw [hmeta, hmemAdd, hmirror a hamem.1, hamem.2]
        constructor
        · intro ht
          exact Or.inl ht
        · intro ht
          rcases ht with ht | ht
          · exact ht
          · exact absurd ht hce
  unfold selectOp
  by_cases hmulti : multi = true
  · rw [hmulti]
    simp only [if_true]
    exact key s hinv
  · have : multi = false := by
      cases multi
      · rfl
      · exact absurd rfl hmulti
    rw [this]
    simp only [Bool.false_eq_true, if_false]
    exact key _ (mirrorInv_clearFold reg s hinv)

theorem mirrorInv_clear (reg : List ObjectTypeDefinition) (s : EngineScene)
    (hinv : MirrorInv s) : MirrorInv (clearSelectionOp reg s) :=
  mirrorInv_clearFold reg s hinv

theorem mirrorInv_deleteEntity (s : EngineScene) (id : String)
    (hinv : MirrorInv s) : MirrorInv (engineDeleteObject s id) := by
  obtain ⟨hnd, hsel, hmirror⟩ := hinv
  unfold engineDeleteObject
  cases hget : Store.get s.store id with
  | none => exact ⟨hnd, hsel, hmirror⟩
  | some e =>
    refine ⟨?_, ?_, ?_⟩
    · have hsub : idsOf (s.store.del id) |>.Sublist (idsOf s.store) :=
        List.Sublist.map _ (List.filter_sublist s.store)
      exact hsub.nodup hnd
    · by_cases hmem : id ∈ s.selected
      · rw [if_pos hmem]
        exact hsel.erase id
      · rw [if_neg hmem]
        exact hsel
    · intro x hx
      have hxs : x ∈ s.store := List.mem_of_mem_filter hx
      have hxid : x.id ≠ id := by
        have := List.of_mem_filter hx
        simpa using this
      rw [hmirror x hxs]
      by_cases hmem : id ∈ s.selected
      · rw [if_pos hmem]
        exact (List.mem_erase_of_ne hxid).symm
      · rw [if_neg hmem]

theorem mirrorInv_deleteFold :
    ∀ (ids : List String) (s : EngineScene), MirrorInv s →
    MirrorInv (ids.foldl (fun acc id => engineDeleteObject acc id) s) := by
  intro ids
  induction ids with
  | nil =>
    intro s h
    exact h
  | cons id ids ih =>
    intro s h
    rw [List.foldl_cons]
    exact ih _ (mirrorInv_deleteEntity s id h)

theorem mirrorInv_deleteSelected (reg : List ObjectTypeDefinition)
    (s : EngineScene) (hinv : MirrorInv s) :
    MirrorInv (deleteSelectedOp reg s) :=
  mirrorInv_clearFold reg _ (mirrorInv_deleteFold s.selected s hinv)

theorem mirrorInv_runSelOp (reg : List ObjectTypeDefinition)
    (s : EngineScene) (op : SelOp) (hinv : MirrorInv s) :
    MirrorInv (runSelOp reg s op) := by
  cases op with
  | select id multi => exact mirrorInv_select reg s id multi hinv
  | clear => exact mirrorInv_clear reg s hinv
  | deleteSelected => exact mirrorInv_deleteSelected reg s hinv
  | deleteEntity id => exact mirrorInv_deleteEntity s id hinv

theorem mirrorInv_runSelOps (reg : List ObjectTypeDefinition) :
    ∀ (ops : List SelOp) (s : EngineScene), MirrorInv s →
    MirrorInv (runSelOps reg s ops) := by
  intro ops
  induction ops with
  | nil =>
    intro s h
    exact h
  | cons op ops ih =>
    intro s h
    exact ih _ (mirrorInv_runSelOp reg s op h)

/-! ## Claim theorems -/

theorem dispatchAll_eq {α : Type} (cbs : List (α → Except String Unit))
    (p : α) :
    dispatchAll cbs p = Except.ok (cbs.map (fun cb =>
      match cb p with
      | .ok _ => true
      | .error _ => false)) := by
  induction cbs with
  | nil => rfl
  | cons cb rest ih =>
    unfold dispatchAll
    rw [ih]
    rfl

/-- C8: `EventBus.emit` wraps each listener invocation in its own
try/catch: for any finite list of subscribed listeners, even if some
throw, the dispatch loop applies every listener to the payload in order
(the result list has one entry per listener, determined by applying that
listener to the payload), and `emit` itself always finishes normally. -/
theorem emit_listener_fault_isolation {α : Type} (bus : EmitBus α)
    (event : String) (p : α) :
    (∃ rs, emitModel bus event p = Except.ok rs) ∧
    (∀ cbs, (bus.find? (fun x => x.1 = event)).map (fun x => x.2) = some cbs →
      emitModel bus event p = Except.ok (cbs.map (fun cb =>
        match cb p with
        | .ok _ => true
        | .error _ => false))) := by
  constructor
  · unfold emitModel
    cases h : (bus.find? (fun x => x.1 = event)).map (fun x => x.2) with
    | none => exact ⟨[], rfl⟩
    | some cbs => exact ⟨_, dispatchAll_eq cbs p⟩
  · intro cbs h
    unfold emitModel
    rw [h]
    exact dispatchAll_eq cbs p

/-- Witness for C8: on a bus whose first listener for `evt` throws, emit
still returns normally and the second listener was invoked. -/
theorem emit_listener_fault_isolation_witness :
    emitModel demoBus "evt" 0 = Except.ok [false, true] :=
  (emit_listener_fault_isolation demoBus "evt" 0).2
    [fun _ => Except.error "boom", fun _ => Except.ok ()] rfl

/-- C7: with the zoom modifier held, the new zoom is the old zoom times
`1 + (-deltaY * 0.01)` clamped to [0.1, 5], and the world point that was
under the cursor maps back to exactly the same screen position after the
camera update (exact rational arithmetic). -/
theorem wheel_zoom_keeps_cursor_fixed (c : Camera) (sx sy deltaY : ℚ)
    (hz : c.zoom ≠ 0) :
    (onWheelZoom c sx sy deltaY).zoom =
      min (max (c.zoom * (1 + -deltaY * (1 / 100))) (1 / 10)) 5 ∧
    worldToScreen (onWheelZoom c sx sy deltaY)
      (screenToWorld c sx sy).x (screenToWorld c sx sy).y = ⟨sx, sy⟩ := by
  refine ⟨rfl, ?_⟩
  have hmin : (1 : ℚ) / 10 ≤
      min (max (c.zoom * (1 + -deltaY * (1 / 100))) (1 / 10)) 5 :=
    le_min (le_max_right _ _) (by norm_num)
  have hnz : min (max (c.zoom * (1 + -deltaY * (1 / 100))) (1 / 10)) 5 ≠ 0 :=
    ne_of_gt (lt_of_lt_of_le (by norm_num) hmin)
  unfold worldToScreen screenToWorld onWheelZoom
  simp only [Point.mk.injEq]
  constructor
  · have harg : sx / c.zoom + c.x -
        (sx / c.zoom + c.x -
          sx / min (max (c.zoom * (1 + -deltaY * (1 / 100))) (1 / 10)) 5) =
        sx / min (max (c.zoom * (1 + -deltaY * (1 / 100))) (1 / 10)) 5 := by
      ring
    rw [harg]
    exact div_mul_cancel₀ sx hnz
  · have harg : sy / c.zoom + c.y -
        (sy / c.zoom + c.y -
          sy / min (max (c.zoom * (1 + -deltaY * (1 / 100))) (1 / 10)) 5) =
        sy / min (max (c.zoom * (1 + -deltaY * (1 / 100))) (1 / 10)) 5 := by
      ring
    rw [harg]
    exact div_mul_cancel₀ sy hnz

/-- Witness for C7: the spec scenario — cursor at screen (100, 100),
wheel delta giving a 10 percent zoom increase from zoom 1. -/
theorem wheel_zoom_keeps_cursor_fixed_witness :
    (Camera.mk 0 0 1).zoom ≠ 0 ∧
    ((onWheelZoom ⟨0, 0, 1⟩ 100 100 (-10)).zoom =
        min (max ((Camera.mk 0 0 1).zoom * (1 + -(-10) * (1 / 100))) (1 / 10)) 5 ∧
      worldToScreen (onWheelZoom ⟨0, 0, 1⟩ 100 100 (-10))
        (screenToWorld ⟨0, 0, 1⟩ 100 100).x
        (screenToWorld ⟨0, 0, 1⟩ 100 100).y = ⟨100, 100⟩) :=
  ⟨by decide, wheel_zoom_keeps_cursor_fixed ⟨0, 0, 1⟩ 100 100 (-10) (by decide)⟩

theorem resizeStep_clamps (handle : HandleType) (orig : ResizeOriginal)
    (wx wy : ℚ) :
    20 ≤ (resizeStep handle orig wx wy).w ∧
    20 ≤ (resizeStep handle orig wx wy).h := by
  cases handle <;>
    exact ⟨by dsimp only [resizeStep]; split <;> linarith,
      by dsimp only [resizeStep]; split <;> linarith⟩

/-- C5: every corner handle clamps both dimensions to the 20-unit
minimum; resizing through the bottom-right handle keeps the top-left
corner (`transform.x/y`) at its pointer-down snapshot and stores the
clamped width/height on the entity. -/
theorem resize_min_and_fixed_corner (reg : List ObjectTypeDefinition)
    (store : Store) (did : String) (orig : ResizeOriginal) (wx wy : ℚ)
    (e : CanvasEntity) (hnd : (idsOf store).Nodup)
    (hget : Store.get store did = some e) :
    (∀ handle, 20 ≤ (resizeStep handle orig wx wy).w ∧
      20 ≤ (resizeStep handle orig wx wy).h) ∧
    (∃ e2, Store.get (engineResizeMove reg store did .br orig wx wy).1 did =
        some e2 ∧
      e2.transform.x = orig.x ∧ e2.transform.y = orig.y ∧
      Obj.get e2.props "width" =
        some (.vNum (resizeStep .br orig wx wy).w) ∧
      Obj.get e2.props "height" =
        some (.vNum (resizeStep .br orig wx wy).h) ∧
      20 ≤ (resizeStep .br orig wx wy).w ∧
      20 ≤ (resizeStep .br orig wx wy).h) := by
  refine ⟨fun handle => resizeStep_clamps handle orig wx wy, ?_⟩
  unfold engineResizeMove
  refine ⟨_, engineUpdate_get_self reg store did _ e hnd hget, rfl, rfl, ?_, ?_,
    (resizeStep_clamps .br orig wx wy).1, (resizeStep_clamps .br orig wx wy).2⟩
  · show Obj.get (Obj.merge e.props
      [("width", .vNum (resizeStep .br orig wx wy).w),
       ("height", .vNum (resizeStep .br orig wx wy).h)]) "width" =
      some (.vNum (resizeStep .br orig wx wy).w)
    exact Obj.get_merge_some
      [("width", .vNum (resizeStep .br orig wx wy).w),
       ("height", .vNum (resizeStep .br orig wx wy).h)]
      e.props "width" (.vNum (resizeStep .br orig wx wy).w) (by simp) rfl
  · show Obj.get (Obj.merge e.props
      [("width", .vNum (resizeStep .br orig wx wy).w),
       ("height", .vNum (resizeStep .br orig wx wy).h)]) "height" =
      some (.vNum (resizeStep .br orig wx wy).h)
    exact Obj.get_merge_some
      [("width", .vNum (resizeStep .br orig wx wy).w),
       ("height", .vNum (resizeStep .br orig wx wy).h)]
      e.props "height" (.vNum (resizeStep .br orig wx wy).h) (by simp) rfl

/-- Witness for C5 at a concrete scene: dragging the bottom-right handle
of a 100 by 100 rectangle up-left to (10, 10) clamps to 20 by 20 and the
origin corner stays fixed. -/
theorem resize_min_and_fixed_corner_witness :
    (idsOf [rect100]).Nodup ∧ Store.get [rect100] "r1" = some rect100 ∧
    ((∀ handle, 20 ≤ (resizeStep handle ⟨0, 0, 100, 100⟩ 10 10).w ∧
        20 ≤ (resizeStep handle ⟨0, 0, 100, 100⟩ 10 10).h) ∧
      (∃ e2, Store.get (engineResizeMove engineRegistry [rect100] "r1" .br
          ⟨0, 0, 100, 100⟩ 10 10).1 "r1" = some e2 ∧
        e2.transform.x = (0 : ℚ) ∧ e2.transform.y = (0 : ℚ) ∧
        Obj.get e2.props "width" =
          some (.vNum (resizeStep .br ⟨0, 0, 100, 100⟩ 10 10).w) ∧
        Obj.get e2.props "height" =
          some (.vNum (resizeStep .br ⟨0, 0, 100, 100⟩ 10 10).h) ∧
        20 ≤ (resizeStep .br ⟨0, 0, 100, 100⟩ 10 10).w ∧
        20 ≤ (resizeStep .br ⟨0, 0, 100, 100⟩ 10 10).h)) :=
  ⟨by decide, by decide,
    resize_min_and_fixed_corner engineRegistry [rect100] "r1"
      ⟨0, 0, 100, 100⟩ 10 10 rect100 (by decide) (by decide)⟩

theorem mem_objectTypesRegistry_hitTest (td : ObjectTypeDefinition)
    (htd : td ∈ objectTypesRegistry)
    (h1 : td.type ≠ "LINE") (h2 : td.type ≠ "ARROW") :
    td.hitTest = rectHitTestPadded := by
  simp only [objectTypesRegistry, List.mem_cons, List.not_mem_nil,
    or_false] at htd
  rcases htd with rfl | rfl | rfl | rfl | rfl | rfl | rfl | rfl | rfl | rfl <;>
    first
      | rfl
      | exact absurd rfl h1
      | exact absurd rfl h2

theorem mem_engineRegistry_hitTest (td : ObjectTypeDefinition)
    (htd : td ∈ engineRegistry)
    (h1 : td.type ≠ "LINE") (h2 : td.type ≠ "ARROW") :
    td.hitTest = rectHitTestInline := by
  simp only [engineRegistry, List.mem_cons, List.not_mem_nil,
    or_false] at htd
  rcases htd with rfl | rfl | rfl | rfl | rfl | rfl | rfl | rfl | rfl | rfl <;>
    first
      | rfl
      | exact absurd rfl h1
      | exact absurd rfl h2

theorem rectHitTestPadded_iff (e : CanvasEntity) (wx wy w h : ℚ)
    (hw : Obj.get e.props "width" = some (.vNum w))
    (hh : Obj.get e.props "height" = some (.vNum h)) :
    (rectHitTestPadded e wx wy = true ↔
      (e.transform.x - 10 ≤ wx ∧ wx ≤ e.transform.x + w + 10 ∧
       e.transform.y - 10 ≤ wy ∧ wy ≤ e.transform.y + h + 10)) := by
  unfold rectHitTestPadded
  rw [hw, hh]
  simp [numOf, Bool.and_eq_true, and_assoc]

theorem rectHitTestInline_iff (e : CanvasEntity) (wx wy w h : ℚ)
    (hw : Obj.get e.props "width" = some (.vNum w))
    (hh : Obj.get e.props "height" = some (.vNum h)) :
    (rectHitTestInline e wx wy = true ↔
      (e.transform.x ≤ wx ∧ wx ≤ e.transform.x + w ∧
       e.transform.y ≤ wy ∧ wy ≤ e.transform.y + h)) := by
  unfold rectHitTestInline
  rw [hw, hh]
  simp [numOf, Bool.and_eq_true, and_assoc]

/-- C4 (amended): every non-line/arrow type in the shared registry
(src/Canvas/ObjectTypes.ts) hit-tests the bounding rectangle expanded by
a 10-unit tolerance on all sides; the engine's inline implementations
(src/Canvas/InfiniteCanvasApp.tsx) hit-test the exact rectangle with no
tolerance.  In both, the entity's own center point hits (for nonnegative
size), and no point farther than the tolerance outside the box hits. -/
theorem hitTest_shared_rect_tolerance (e : CanvasEntity) (w h : ℚ)
    (hw : Obj.get e.props "width" = some (.vNum w))
    (hh : Obj.get e.props "height" = some (.vNum h)) :
    (∀ td ∈ objectTypesRegistry, td.type ≠ "LINE" → td.type ≠ "ARROW" →
      ∀ wx wy, (td.hitTest e wx wy = true ↔
        (e.transform.x - 10 ≤ wx ∧ wx ≤ e.transform.x + w + 10 ∧
         e.transform.y - 10 ≤ wy ∧ wy ≤ e.transform.y + h + 10))) ∧
    (∀ td ∈ engineRegistry, td.type ≠ "LINE" → td.type ≠ "ARROW" →
      ∀ wx wy, (td.hitTest e wx wy = true ↔
        (e.transform.x ≤ wx ∧ wx ≤ e.transform.x + w ∧
         e.transform.y ≤ wy ∧ wy ≤ e.transform.y + h))) ∧
    (0 ≤ w → 0 ≤ h →
      ∀ td, (td ∈ objectTypesRegistry ∨ td ∈ engineRegistry) →
        td.type ≠ "LINE" → td.type ≠ "ARROW" →
        td.hitTest e (e.transform.x + w / 2) (e.transform.y + h / 2) = true) ∧
    (∀ wx wy, (wx < e.transform.x - 10 ∨ e.transform.x + w + 10 < wx ∨
        wy < e.transform.y - 10 ∨ e.transform.y + h + 10 < wy) →
      ∀ td, (td ∈ objectTypesRegistry ∨ td ∈ engineRegistry) →
        td.type ≠ "LINE" → td.type ≠ "ARROW" →
        td.hitTest e wx wy = false) := by
  refine ⟨?_, ?_, ?_, ?_⟩
  · intro td htd h1 h2 wx wy
    rw [mem_objectTypesRegistry_hitTest td htd h1 h2]
    exact rectHitTestPadded_iff e wx wy w h hw hh
  · intro td htd h1 h2 wx wy
    rw [mem_engineRegistry_hitTest td htd h1 h2]
    exact rectHitTestInline_iff e wx wy w h hw hh
  · intro hw0 hh0 td htd h1 h2
    rcases htd with htd | htd
    · rw [mem_objectTypesRegistry_hitTest td htd h1 h2]
      rw [rectHitTestPadded_iff e _ _ w h hw hh]
      refine ⟨by linarith, by linarith, by linarith, by linarith⟩
    · rw [mem_engineRegistry_hitTest td htd h1 h2]
      rw [rectHitTestInline_iff e _ _ w h hw hh]
      refine ⟨by linarith, by linarith, by linarith, by linarith⟩
  · intro wx wy hout td htd h1 h2
    rcases htd with htd | htd
    · rw [mem_objectTypesRegistry_hitTest td htd h1 h2]
      cases hres : rectHitTestPadded e wx wy
      · rfl
      · exfalso
        have := (rectHitTestPadded_iff e wx wy w h hw hh).mp hres
        rcases hout with ho | ho | ho | ho <;> linarith [this.1, this.2.1,
          this.2.2.1, this.2.2.2]
    · rw [mem_engineRegistry_hitTest td htd h1 h2]
      cases hres : rectHitTestInline e wx wy
      · rfl
      · exfalso
        have := (rectHitTestInline_iff e wx wy w h hw hh).mp hres
        rcases hout with ho | ho | ho | ho <;> linarith [this.1, this.2.1,
          this.2.2.1, this.2.2.2]

/-- Witness for C4 on a concrete rectangle: the padded registry hit-test
accepts a point 5 units left of the box, the inline engine hit-test
accepts the center, and the conclusions instantiate at the entity. -/
theorem hitTest_shared_rect_tolerance_witness :
    (Obj.get rect100.props "width" = some (.vNum 100) ∧
      Obj.get rect100.props "height" = some (.vNum 100)) ∧
    rectHitTestPadded rect100 (-5) 50 = true ∧
    rectHitTestInline rect100 50 50 = true ∧
    (0 ≤ (100 : ℚ) → 0 ≤ (100 : ℚ) →
      ∀ td, (td ∈ objectTypesRegistry ∨ td ∈ engineRegistry) →
        td.type ≠ "LINE" → td.type ≠ "ARROW" →
        td.hitTest rect100 (rect100.transform.x + 100 / 2)
          (rect100.transform.y + 100 / 2) = true) := by
  refine ⟨⟨rfl, rfl⟩, ?_, ?_,
    (hitTest_shared_rect_tolerance rect100 100 100 rfl rfl).2.2.1⟩
  · exact (rectHitTestPadded_iff rect100 (-5) 50 100 100 rfl rfl).mpr
      (by norm_num [rect100])
  · exact (rectHitTestInline_iff rect100 50 50 100 100 rfl rfl).mpr
      (by norm_num [rect100])

/-- Counterexample for C4 as stated: the engine's registered RECTANGLE
hit-test returns `false` at world point (-5, 50), which lies inside the
10-unit-expanded bounding box of `rect100`, so the claimed
"true exactly when within the box expanded by the tolerance" fails for
the inline engine implementation. -/
theorem hitTest_inline_tolerance_cex :
    ((getObjectType engineRegistry "RECTANGLE").map
      (fun td => td.hitTest rect100 (-5) 50)) = some false ∧
    rect100.transform.x - 10 ≤ (-5 : ℚ) ∧
    (-5 : ℚ) ≤ rect100.transform.x + numOf (Obj.get rect100.props "width") + 10 ∧
    rect100.transform.y - 10 ≤ (50 : ℚ) ∧
    (50 : ℚ) ≤ rect100.transform.y + numOf (Obj.get rect100.props "height") + 10 := by
  have hmiss : rectHitTestInline rect100 (-5) 50 = false := by
    cases h : rectHitTestInline rect100 (-5) 50 with
    | false => rfl
    | true =>
      exfalso
      have := (rectHitTestInline_iff rect100 (-5) 50 100 100 rfl rfl).mp h
      norm_num [rect100] at this
  have hreg : getObjectType engineRegistry "RECTANGLE" =
      some ⟨"RECTANGLE", rectHitTestInline, rectGetBBox⟩ := rfl
  refine ⟨?_, ?_, ?_, ?_, ?_⟩
  · rw [hreg]
    show some (rectHitTestInline rect100 (-5) 50) = some false
    rw [hmiss]
  · norm_num [rect100]
  · norm_num [rect100, numOf, Obj.get]
  · norm_num [rect100]
  · norm_num [rect100, numOf, Obj.get]

theorem Obj.get_merge_firstSome (a b : Obj)
    (hnd : (b.map Prod.fst).Nodup) (k : String) :
    Obj.get (Obj.merge a b) k = firstSome (Obj.get b k) (Obj.get a k) := by
  cases hbk : Obj.get b k with
  | none =>
    rw [Obj.get_merge_none a b k hbk]
    rfl
  | some v =>
    rw [Obj.get_merge_some b a k v hnd hbk]
    rfl

/-- C9: on an unknown id, `updateObject` and `deleteObject` leave the
store unchanged and emit nothing; on a known id, `updateObject` stores
the entity with each provided field group shallow-merged over the
existing one (override-else-keep per key for `props`/`metadata`, per
field for `transform`), leaves every other entry untouched, and emits a
single `ENTITY_UPDATED` carrying the old and new snapshots; `deleteObject`
removes exactly that entry and emits `ENTITY_DELETED` with the snapshot. -/
theorem update_delete_unknown_and_merge (s : Store) (id : String)
    (u : EntityUpdates) :
    (Store.get s id = none →
      sceneUpdateObject s id u = (s, []) ∧ sceneDeleteObject s id = (s, [])) ∧
    (∀ e, Store.get s id = some e →
      (sceneUpdateObject s id u).2 = [.updated e (applyUpdates e u)] ∧
      Store.get (sceneUpdateObject s id u).1 id = some (applyUpdates e u) ∧
      (∀ c, c ≠ id →
        Store.get (sceneUpdateObject s id u).1 c = Store.get s c) ∧
      idsOf (sceneUpdateObject s id u).1 = idsOf s ∧
      (applyUpdates e u).id = e.id ∧ (applyUpdates e u).type = e.type ∧
      (∀ p, u.props = some p → (p.map Prod.fst).Nodup →
        ∀ k, Obj.get (applyUpdates e u).props k =
          firstSome (Obj.get p k) (Obj.get e.props k)) ∧
      (u.props = none → (applyUpdates e u).props = e.props) ∧
      (∀ m, u.metadata = some m → (m.map Prod.fst).Nodup →
        ∀ k, Obj.get (applyUpdates e u).metadata k =
          firstSome (Obj.get m k) (Obj.get e.metadata k)) ∧
      (u.metadata = none → (applyUpdates e u).metadata = e.metadata) ∧
      (∀ tp, u.transform = some tp →
        (applyUpdates e u).transform = e.transform.apply tp) ∧
      (u.transform = none → (applyUpdates e u).transform = e.transform) ∧
      sceneDeleteObject s id = (s.del id, [.deleted e]) ∧
      Store.get (s.del id) id = none ∧
      (∀ c, c ≠ id → Store.get (s.del id) c = Store.get s c)) := by
  constructor
  · intro h
    exact ⟨sceneUpdateObject_unknown s id u h, sceneDeleteObject_unknown s id h⟩
  · intro e h
    have hid : (applyUpdates e u).id = id := by
      rw [applyUpdates_id]
      exact (Store.get_some_mem s id e h).2
    rw [sceneUpdateObject_known s id u e h]
    refine ⟨rfl, Store.get_replace_self s id e _ hid h,
      fun c hc => Store.get_replace_ne s id c _ hid hc,
      idsOf_map_replace s id _ hid, rfl, rfl, ?_, ?_, ?_, ?_, ?_, ?_,
      sceneDeleteObject_known s id e h, Store.get_del_self s id,
      fun c hc => Store.get_del_ne s id c hc⟩
    · intro p hp hnd k
      show Obj.get (match u.props with
        | some p2 => Obj.merge e.props p2
        | none => e.props) k = _
      rw [hp]
      exact Obj.get_merge_firstSome e.props p hnd k
    · intro hp
      show (match u.props with
        | some p2 => Obj.merge e.props p2
        | none => e.props) = e.props
      rw [hp]
    · intro m hm hnd k
      show Obj.get (match u.metadata with
        | some m2 => Obj.merge e.metadata m2
        | none => e.metadata) k = _
      rw [hm]
      exact Obj.get_merge_firstSome e.metadata m hnd k
    · intro hm
      show (match u.metadata with
        | some m2 => Obj.merge e.metadata m2
        | none => e.metadata) = e.metadata
      rw [hm]
    · intro tp htp
      show (match u.transform with
        | some tp2 => e.transform.apply tp2
        | none => e.transform) = e.transform.apply tp
      rw [htp]
    · intro htp
      show (match u.transform with
        | some tp2 => e.transform.apply tp2
        | none => e.transform) = e.transform
      rw [htp]

/-- Witness for C9 at a concrete store: updating the rectangle's props
overrides `width` and keeps `color`; an unknown id is a no-op. -/
theorem update_delete_unknown_and_merge_witness :
    (Store.get [rect100] "ghost" = none ∧
      (sceneUpdateObject [rect100] "ghost"
          { props := some [("width", .vNum 7)] } = ([rect100], []) ∧
        sceneDeleteObject [rect100] "ghost" = ([rect100], []))) ∧
    (Store.get [rect100] "r1" = some rect100 ∧
      Obj.get (applyUpdates rect100
          { props := some [("width", .vNum 7)] }).props "width" =
        firstSome (Obj.get [("width", .vNum 7)] "width")
          (Obj.get rect100.props "width") ∧
      Obj.get (applyUpdates rect100
          { props := some [("width", .vNum 7)] }).props "color" =
        firstSome (Obj.get [("width", .vNum 7)] "color")
          (Obj.get rect100.props "color")) := by
  have hu := update_delete_unknown_and_merge [rect100] "ghost"
    { props := some [("width", .vNum 7)] }
  have hk := update_delete_unknown_and_merge [rect100] "r1"
    { props := some [("width", .vNum 7)] }
  refine ⟨⟨by decide, hu.1 (by decide)⟩, ⟨by decide, ?_, ?_⟩⟩
  · exact ((hk.2 rect100 (by decide)).2.2.2.2.2.2.1
      [("width", .vNum 7)] rfl (by simp)) "width"
  · exact ((hk.2 rect100 (by decide)).2.2.2.2.2.2.1
      [("width", .vNum 7)] rfl (by simp)) "color"

/-- C10: starting from a store whose entities carry no truthy
`metadata.selected` flag and an empty selection, after any sequence of
selection-module operations and entity deletions, every entity present
in the store has a truthy `metadata.selected` exactly when its id is in
the selection module's set. -/
theorem selection_metadata_mirror (reg : List ObjectTypeDefinition)
    (s0 : EngineScene) (ops : List SelOp)
    (hnd : (idsOf s0.store).Nodup) (hsel : s0.selected = [])
    (hmeta : ∀ e ∈ s0.store,
      truthyOpt (Obj.get e.metadata "selected") = false) :
    ∀ e ∈ (runSelOps reg s0 ops).store,
      (truthyOpt (Obj.get e.metadata "selected") = true ↔
        e.id ∈ (runSelOps reg s0 ops).selected) := by
  have hinv : MirrorInv s0 := by
    refine ⟨hnd, by rw [hsel]; exact List.nodup_nil, ?_⟩
    intro e he
    rw [hmeta e he, hsel]
    simp
  exact (mirrorInv_runSelOps reg ops s0 hinv).2.2

/-- Witness for C10: select the rectangle, then delete the selection;
the mirror holds at every step's result. -/
theorem selection_metadata_mirror_witness :
    ((idsOf (⟨[rect100], []⟩ : EngineScene).store).Nodup ∧
      (⟨[rect100], []⟩ : EngineScene).selected = [] ∧
      (∀ e ∈ (⟨[rect100], []⟩ : EngineScene).store,
        truthyOpt (Obj.get e.metadata "selected") = false)) ∧
    (∀ e ∈ (runSelOps engineRegistry ⟨[rect100], []⟩
        [.select "r1" false, .deleteSelected]).store,
      (truthyOpt (Obj.get e.metadata "selected") = true ↔
        e.id ∈ (runSelOps engineRegistry ⟨[rect100], []⟩
          [.select "r1" false, .deleteSelected]).selected)) :=
  ⟨⟨by decide, rfl, by decide⟩,
    selection_metadata_mirror engineRegistry ⟨[rect100], []⟩
      [.select "r1" false, .deleteSelected] (by decide) rfl (by decide)⟩

theorem loadData_aux : ∀ (l acc : Store), (idsOf l).Nodup →
    (∀ e ∈ l, ∀ x ∈ acc, x.id ≠ e.id) →
    l.foldl (fun a o => a.setEntry o) acc = acc ++ l := by
  intro l
  induction l with
  | nil =>
    intro acc _ _
    simp
  | cons e l ih =>
    intro acc hnd hfresh
    rw [List.foldl_cons]
    have hset : acc.setEntry e = acc ++ [e] := by
      unfold Store.setEntry
      have hany : (acc.any fun x => x.id = e.id) = false := by
        cases hb : acc.any fun x => x.id = e.id
        · rfl
        · exfalso
          rcases List.any_eq_true.mp hb with ⟨x, hx, hxe⟩
          exact hfresh e (by simp) x hx (by simpa using hxe)
      rw [hany]
      simp
    rw [hset, ih (acc ++ [e]) (List.nodup_cons.mp hnd).2 ?_]
    · simp
    · intro e2 he2 x hx
      rcases List.mem_append.mp hx with hx | hx
      · exact hfresh e2 (by simp [he2]) x hx
      · have hxe : x = e := by simpa using hx
        subst hxe
        intro hid
        have : e2.id ∈ idsOf l := List.mem_map.mpr ⟨e2, he2, rfl⟩
        rw [← hid] at this
        exact (List.nodup_cons.mp hnd).1 this

theorem loadData_self (s : Store) (hnd : (idsOf s).Nodup) :
    loadData s = s := by
  unfold loadData
  rw [loadData_aux s [] hnd (by intro e _ x hx; cases hx)]
  simp

/-- C3 (amended): when no entity is selected, exporting and re-importing
reproduces the identical entity list (same ids, fields and order as
`getAllObjects` before the export), and the selection stays empty.  (With
a nonempty selection, the `clearSelection` step of import overwrites
`metadata.selected` on previously selected ids — see the
counterexample.) -/
theorem export_import_roundtrip_unselected (reg : List ObjectTypeDefinition)
    (s : EngineScene) (hnd : (idsOf s.store).Nodup)
    (hsel : s.selected = []) :
    getAllObjects (exportImportRoundtrip reg s).store =
      getAllObjects s.store ∧
    (exportImportRoundtrip reg s).selected = [] := by
  unfold exportImportRoundtrip clearSelectionOp
  rw [hsel]
  constructor
  · show List.foldl
      (fun st sid => (engineUpdateObject reg st sid (selMetaUpdate false)).1)
      (loadData (getAllObjects s.store)) [] = s.store
    rw [List.foldl_nil]
    exact loadData_self s.store hnd
  · rfl

/-- Witness for C3 on a concrete unselected scene. -/
theorem export_import_roundtrip_unselected_witness :
    ((idsOf (⟨[rect100], []⟩ : EngineScene).store).Nodup ∧
      (⟨[rect100], []⟩ : EngineScene).selected = []) ∧
    (getAllObjects (exportImportRoundtrip engineRegistry ⟨[rect100], []⟩).store =
        getAllObjects (⟨[rect100], []⟩ : EngineScene).store ∧
      (exportImportRoundtrip engineRegistry ⟨[rect100], []⟩).selected = []) :=
  ⟨⟨by decide, rfl⟩,
    export_import_roundtrip_unselected engineRegistry ⟨[rect100], []⟩
      (by decide) rfl⟩

/-- Counterexample for C3 as stated: a scene holding one selected
rectangle does not round-trip identically — the import path's
`clearSelection` overwrites the record's `metadata.selected` to `false`,
so the reproduced entity set differs from `getAllObjects` before the
export. -/
theorem export_import_roundtrip_cex :
    getAllObjects (exportImportRoundtrip engineRegistry sceneSelected).store ≠
      getAllObjects sceneSelected.store := by
  decide

/-- C2 (code bug evidence): importing the well-formed JSON array payload
`"[null]"` onto a scene with one entity empties the store entirely —
`loadData` clears the Map, then accessing `null.id` throws inside the
loop, the catch swallows it, and `clearSelection` is never reached — so
the prior scene is destroyed rather than kept (fail closed violated),
while a non-JSON or non-array payload does leave everything unchanged. -/
theorem import_null_element_empties_store :
    (importDataJs (some (.jsonArr [Json.null])) importStateA).entities = [] ∧
    importStateA.entities ≠ [] ∧
    (importDataJs (some (.jsonArr [Json.null])) importStateA).selected =
      importStateA.selected ∧
    (importDataJs none importStateA).entities = importStateA.entities ∧
    (importDataJs (some (.jsonStr "nope")) importStateA).entities =
      importStateA.entities := by
  refine ⟨rfl, ?_, rfl, rfl, rfl⟩
  intro hcontra
  simp [importStateA] at hcontra

theorem Obj.keys_map_replace (o : Obj) (k : String) (v : Value) :
    ((o.map (fun p => if p.1 = k then (k, v) else p)).map Prod.fst) =
      o.map Prod.fst := by
  induction o with
  | nil => rfl
  | cons p o ih =>
    obtain ⟨k1, v1⟩ := p
    by_cases hp : k1 = k
    · simp only [List.map_cons, if_pos hp]
      rw [hp]
      exact congrArg (List.cons k) ih
    · simp only [List.map_cons, if_neg hp]
      exact congrArg (List.cons k1) ih

theorem Obj.keys_set_nodup (o : Obj) (k : String) (v : Value)
    (h : (o.map Prod.fst).Nodup) : ((o.set k v).map Prod.fst).Nodup := by
  unfold Obj.set
  by_cases hc : o.any (fun p => p.1 = k)
  · rw [if_pos hc, Obj.keys_map_replace]
    exact h
  · have hc' : (o.any (fun p => p.1 = k)) = false := by
      cases hb : o.any (fun p => p.1 = k)
      · rfl
      · exact absurd hb hc
    rw [hc']
    simp only [Bool.false_eq_true, if_false, List.map_append, List.map_cons,
      List.map_nil]
    rw [List.nodup_append]
    refine ⟨h, List.nodup_singleton k, ?_⟩
    intro a ha hak
    have hak2 : a = k := by simpa using hak
    subst hak2
    rcases List.mem_map.mp ha with ⟨p, hp, hpk⟩
    exact hc (List.any_eq_true.mpr ⟨p, hp, by simp [hpk]⟩)

theorem Obj.keys_merge_nodup : ∀ (b a : Obj), (a.map Prod.fst).Nodup →
    ((Obj.merge a b).map Prod.fst).Nodup := by
  intro b
  induction b with
  | nil =>
    intro a h
    exact h
  | cons kv b ih =>
    intro a h
    exact ih (a.set kv.1 kv.2) (Obj.keys_set_nodup a kv.1 kv.2 h)

theorem foldSel_get_nonconn (reg : List ObjectTypeDefinition) (b : Bool) :
    ∀ (sel : List String) (s : Store), (idsOf s).Nodup →
    ∀ c a, c ∉ sel → Store.get s c = some a →
    isConnectorType a.type = false →
    Store.get (sel.foldl (fun st sid =>
      (engineUpdateObject reg st sid (selMetaUpdate b)).1) s) c = some a := by
  intro sel
  induction sel with
  | nil =>
    intro s _ c a _ h _
    exact h
  | cons sid sel ih =>
    intro s hnd c a hc h hnc
    rw [List.foldl_cons]
    have hcsid : c ≠ sid := by
      intro hh
      exact hc (hh ▸ List.mem_cons_self sid sel)
    rcases engineUpdate_get_ne_some reg s sid (selMetaUpdate b) c a hnd
      hcsid h with ⟨a1, hget1, hR⟩
    have ha1 : a1 = a := hR.2.2.2 hnc
    rw [ha1] at hget1
    exact ih _ (by rw [engineUpdate_idsOf reg s sid _ hnd]; exact hnd) c a
      (fun hm => hc (List.mem_cons_of_mem sid hm)) hget1 hnc

theorem react_fold_get_other (reg : List ObjectTypeDefinition) :
    ∀ (ls : List CanvasEntity) (acc : Store × List SceneEvent) (c : String),
    (∀ L ∈ ls, ¬(L.id = c)) →
    Store.get (ls.foldl (fun acc line =>
      let r := updateLineConnections reg acc.1 line
      (r.1, acc.2 ++ r.2)) acc).1 c = Store.get acc.1 c := by
  intro ls
  induction ls with
  | nil =>
    intro acc c _
    rfl
  | cons L ls ih =>
    intro acc c h
    rw [List.foldl_cons]
    rw [ih _ c (fun L2 h2 => h L2 (List.mem_cons_of_mem L h2))]
    show Store.get (updateLineConnections reg acc.1 L).1 c = _
    unfold updateLineConnections
    cases hg : Store.get acc.1 L.id with
    | none =>
      rw [sceneUpdateObject_unknown _ _ _ hg]
    | some e =>
      rw [sceneUpdateObject_known _ _ _ e hg]
      have hid : (applyUpdates e (ulcUpdates reg acc.1 L)).id = L.id := by
        rw [applyUpdates_id]
        exact (Store.get_some_mem acc.1 L.id e hg).2
      exact Store.get_replace_ne acc.1 L.id c _ hid
        (fun hc => h L (List.mem_cons_self L ls) hc.symm)

theorem engineUpdate_get_safe (reg : List ObjectTypeDefinition)
    (store : Store) (id : String) (u : EntityUpdates) (c : String)
    (a : CanvasEntity) (hnd : (idsOf store).Nodup) (hc : c ≠ id)
    (h : Store.get store c = some a)
    (hsafe : (isConnectorType a.type &&
      (decide (Obj.get a.props "startConnectedId" = some (.vStr id)) ||
       decide (Obj.get a.props "endConnectedId" = some (.vStr id)))) = false) :
    Store.get (engineUpdateObject reg store id u).1 c = some a := by
  cases htarget : Store.get store id with
  | none =>
    rw [engineUpdateObject_unknown reg store id u htarget]
    exact h
  | some e =>
    rw [engineUpdateObject_known reg store id u e htarget]
    have hid : (applyUpdates e u).id = id := by
      rw [applyUpdates_id]
      exact (Store.get_some_mem store id e htarget).2
    set st1 := store.map (fun x => if x.id = id then applyUpdates e u else x)
      with hst1
    have hnd1 : (idsOf st1).Nodup := by
      rw [hst1, idsOf_map_replace store id _ hid]
      exact hnd
    have hget1 : Store.get st1 c = some a := by
      rw [hst1, Store.get_replace_ne store id c _ hid hc]
      exact h
    by_cases hcn : isConnectorType (applyUpdates e u).type = true
    · show Store.get (connectionReact reg st1 (applyUpdates e u)).1 c = some a
      unfold connectionReact
      rw [if_pos hcn]
      exact hget1
    · set ls := st1.filter (fun o => isConnectorType o.type &&
        (decide (Obj.get o.props "startConnectedId" =
          some (.vStr (applyUpdates e u).id)) ||
         decide (Obj.get o.props "endConnectedId" =
          some (.vStr (applyUpdates e u).id)))) with hls
      have hCR : (connectionReact reg st1 (applyUpdates e u)).1 =
          (ls.foldl (fun acc line =>
            let r := updateLineConnections reg acc.1 line
            (r.1, acc.2 ++ r.2)) (st1, [])).1 := by
        unfold connectionReact
        rw [if_neg hcn]
      have hothers : ∀ L ∈ ls, ¬(L.id = c) := by
        intro L hL hLc
        have hmf := List.mem_filter.mp (hls ▸ hL)
        have hgL : Store.get st1 L.id = some L :=
          Store.get_mem_nodup st1 L hnd1 hmf.1
        rw [hLc] at hgL
        have hLa : L = a := Option.some_inj.mp (hgL.symm.trans hget1)
        have hpred := hmf.2
        rw [hLa, hid] at hpred
        exact Bool.noConfusion (hpred.symm.trans hsafe)
      rw [hCR, react_fold_get_other reg ls (st1, []) c hothers]
      exact hget1

theorem foldSel_get_safe (reg : List ObjectTypeDefinition) (b : Bool) :
    ∀ (sel : List String) (s : Store), (idsOf s).Nodup →
    ∀ c a, c ∉ sel → Store.get s c = some a →
    (∀ sid ∈ sel, (isConnectorType a.type &&
      (decide (Obj.get a.props "startConnectedId" = some (.vStr sid)) ||
       decide (Obj.get a.props "endConnectedId" = some (.vStr sid)))) = false) →
    Store.get (sel.foldl (fun st sid =>
      (engineUpdateObject reg st sid (selMetaUpdate b)).1) s) c = some a := by
  intro sel
  induction sel with
  | nil =>
    intro s _ c a _ h _
    exact h
  | cons sid sel ih =>
    intro s hnd c a hc h hsafe
    rw [List.foldl_cons]
    have hcsid : c ≠ sid := fun hh => hc (hh ▸ List.mem_cons_self sid sel)
    have hget1 := engineUpdate_get_safe reg s sid (selMetaUpdate b) c a hnd
      hcsid h (hsafe sid (List.mem_cons_self sid sel))
    exact ih _ (by rw [engineUpdate_idsOf reg s sid _ hnd]; exact hnd) c a
      (fun hm => hc (List.mem_cons_of_mem sid hm)) hget1
      (fun s2 h2 => hsafe s2 (List.mem_cons_of_mem sid h2))

/-- C6 (amended): on pointer-up from Creating, an entity with final width
or height below 10 that is not a LINE/ARROW with a live end connection is
snapped to its type-specific fallback size (a connector additionally has
its raw end point reset to transform plus fallback) with its position
unchanged, becomes the sole selection, and the active tool reverts to
select — provided the entity is not a connector referencing a previously
selected entity: in that case the selection change performed on the same
pointer-up synchronously re-routes the freshly snapped connector and
overwrites its snapped size and position (see the counterexample). -/
theorem pointerUp_snap_below_threshold (reg : List ObjectTypeDefinition)
    (st : EngineUIState) (cid : String) (e : CanvasEntity) (w h : ℚ)
    (hnd : (idsOf st.scene.store).Nodup)
    (hkeys : (e.props.map Prod.fst).Nodup)
    (hcreating : st.creatingEntityId = some cid)
    (hfresh : cid ∉ st.scene.selected)
    (hget : Store.get st.scene.store cid = some e)
    (hw : Obj.get e.props "width" = some (.vNum w))
    (hh : Obj.get e.props "height" = some (.vNum h))
    (hsmall : w < 10 ∨ h < 10)
    (hnotlive : ¬(isConnectorType e.type = true ∧
      truthyOpt (Obj.get e.props "endConnectedId") = true))
    (hok : isConnectorType e.type = false ∨
      ∀ sid ∈ st.scene.selected,
        Obj.get e.props "startConnectedId" ≠ some (.vStr sid) ∧
        Obj.get e.props "endConnectedId" ≠ some (.vStr sid)) :
    (onPointerUpModel reg st).activeTool = "SELECT" ∧
    (onPointerUpModel reg st).scene.selected = [cid] ∧
    ∃ e2, Store.get (onPointerUpModel reg st).scene.store cid = some e2 ∧
      e2.transform = e.transform ∧
      Obj.get e2.props "width" =
        some (.vNum (creationFallback st.framePreset e.type).1) ∧
      Obj.get e2.props "height" =
        some (.vNum (creationFallback st.framePreset e.type).2) ∧
      truthyOpt (Obj.get e2.metadata "selected") = true ∧
      (isConnectorType e.type = true →
        Obj.get e2.props "end" = some (.vPoint
          (e.transform.x + (creationFallback st.framePreset e.type).1)
          (e.transform.y + (creationFallback st.framePreset e.type).2))) := by
  have hsmall2 : numOf (Obj.get e.props "width") < 10 ∨
      numOf (Obj.get e.props "height") < 10 := by
    rw [hw, hh]
    exact hsmall
  have hred : onPointerUpModel reg st =
      { scene := selectOp reg
          { store := (engineUpdateObject reg st.scene.store cid
              { props := some (if isConnectorType e.type then
                  Obj.set (Obj.merge e.props
                    [("width", .vNum (creationFallback st.framePreset e.type).1),
                     ("height", .vNum (creationFallback st.framePreset e.type).2)])
                    "end" (.vPoint
                      (e.transform.x + (creationFallback st.framePreset e.type).1)
                      (e.transform.y + (creationFallback st.framePreset e.type).2))
                else Obj.merge e.props
                  [("width", .vNum (creationFallback st.framePreset e.type).1),
                   ("height", .vNum (creationFallback st.framePreset e.type).2)]) }).1
            selected := st.scene.selected } cid false
        activeTool := "SELECT"
        framePreset := none
        creatingEntityId := none
        createStartPoint := none } := by
    unfold onPointerUpModel
    rw [hcreating]
    simp only [hget, if_pos hsmall2, if_pos hnotlive]
  rw [hred]
  set fb := creationFallback st.framePreset e.type with hfb
  set base : Obj := Obj.merge e.props
    [("width", .vNum fb.1), ("height", .vNum fb.2)] with hbase
  set ps : Obj := if isConnectorType e.type then
      Obj.set base "end" (.vPoint (e.transform.x + fb.1) (e.transform.y + fb.2))
    else base with hps
  set e1 := applyUpdates e { props := some ps } with he1
  have hkeysbase : (base.map Prod.fst).Nodup :=
    Obj.keys_merge_nodup _ e.props hkeys
  have hkeysps : (ps.map Prod.fst).Nodup := by
    rw [hps]
    cases hcn : isConnectorType e.type
    · rw [if_neg Bool.false_ne_true]
      exact hkeysbase
    · rw [if_pos rfl]
      exact Obj.keys_set_nodup base "end" _ hkeysbase
  have hbw : Obj.get base "width" = some (.vNum fb.1) :=
    Obj.get_merge_some [("width", .vNum fb.1), ("height", .vNum fb.2)]
      e.props "width" (.vNum fb.1) (by simp) rfl
  have hbh : Obj.get base "height" = some (.vNum fb.2) :=
    Obj.get_merge_some [("width", .vNum fb.1), ("height", .vNum fb.2)]
      e.props "height" (.vNum fb.2) (by simp) rfl
  have hpw : Obj.get ps "width" = some (.vNum fb.1) := by
    rw [hps]
    cases hcn : isConnectorType e.type
    · rw [if_neg Bool.false_ne_true]
      exact hbw
    · rw [if_pos rfl, Obj.get_set_ne base "end" "width" _ (by decide)]
      exact hbw
  have hph : Obj.get ps "height" = some (.vNum fb.2) := by
    rw [hps]
    cases hcn : isConnectorType e.type
    · rw [if_neg Bool.false_ne_true]
      exact hbh
    · rw [if_pos rfl, Obj.get_set_ne base "end" "height" _ (by decide)]
      exact hbh
  have hpend : isConnectorType e.type = true →
      Obj.get ps "end" = some (.vPoint (e.transform.x + fb.1)
        (e.transform.y + fb.2)) := by
    intro hcn
    rw [hps, if_pos hcn, Obj.get_set_self]
  have hpkeep : ∀ k, k ≠ "end" → k ≠ "width" → k ≠ "height" →
      Obj.get ps k = Obj.get e.props k := by
    intro k h1 h2 h3
    have hlist : Obj.get [("width", Value.vNum fb.1),
        ("height", Value.vNum fb.2)] k = none := by
      rw [Obj.get_cons, if_neg (fun hh => h2 hh.symm),
        Obj.get_cons, if_neg (fun hh => h3 hh.symm)]
      rfl
    have hbk : Obj.get base k = Obj.get e.props k := by
      rw [hbase]
      exact Obj.get_merge_none e.props _ k hlist
    rw [hps]
    cases hcn : isConnectorType e.type
    · rw [if_neg Bool.false_ne_true]
      exact hbk
    · rw [if_pos rfl, Obj.get_set_ne base "end" k _ h1]
      exact hbk
  have he1keep : ∀ k, k ≠ "end" → k ≠ "width" → k ≠ "height" →
      Obj.get e1.props k = Obj.get e.props k := by
    intro k h1 h2 h3
    show Obj.get (Obj.merge e.props ps) k = Obj.get e.props k
    rw [Obj.get_merge_firstSome e.props ps hkeysps, hpkeep k h1 h2 h3]
    cases Obj.get e.props k with
    | none => rfl
    | some v => rfl
  have he1type : e1.type = e.type := rfl
  have hsafe1 : ∀ sid ∈ st.scene.selected, (isConnectorType e1.type &&
      (decide (Obj.get e1.props "startConnectedId" = some (.vStr sid)) ||
       decide (Obj.get e1.props "endConnectedId" = some (.vStr sid)))) = false := by
    intro sid hm
    rcases hok with hnc | hnoref
    · rw [he1type, hnc]
      rfl
    · have hd1 : decide (Obj.get e1.props "startConnectedId" =
          some (.vStr sid)) = false := decide_eq_false (by
        rw [he1keep "startConnectedId" (by decide) (by decide) (by decide)]
        exact (hnoref sid hm).1)
      have hd2 : decide (Obj.get e1.props "endConnectedId" =
          some (.vStr sid)) = false := decide_eq_false (by
        rw [he1keep "endConnectedId" (by decide) (by decide) (by decide)]
        exact (hnoref sid hm).2)
      rw [hd1, hd2, Bool.or_false, Bool.and_false]
  have hgetb : Store.get (engineUpdateObject reg st.scene.store cid
      { props := some ps }).1 cid = some e1 :=
    engineUpdate_get_self reg st.scene.store cid _ e hnd hget
  have hnd1 : (idsOf (engineUpdateObject reg st.scene.store cid
      { props := some ps }).1).Nodup := by
    rw [engineUpdate_idsOf reg st.scene.store cid _ hnd]
    exact hnd
  refine ⟨rfl, ?_, ?_⟩
  · show selectedSetAdd (if false = true then st.scene.selected else []) cid = [cid]
    simp [selectedSetAdd]
  · show ∃ e2, Store.get (engineUpdateObject reg
        (List.foldl (fun s2 sid =>
          (engineUpdateObject reg s2 sid (selMetaUpdate false)).1)
          (engineUpdateObject reg st.scene.store cid { props := some ps }).1
          (if false = true then ([] : List String) else st.scene.selected))
        cid (selMetaUpdate true)).1 cid = some e2 ∧ _
    simp only [Bool.false_eq_true, if_false]
    have hgetfold := foldSel_get_safe reg false st.scene.selected
      (engineUpdateObject reg st.scene.store cid { props := some ps }).1
      hnd1 cid e1 hfresh hgetb hsafe1
    have hndfold : (idsOf (List.foldl (fun s2 sid =>
        (engineUpdateObject reg s2 sid (selMetaUpdate false)).1)
        (engineUpdateObject reg st.scene.store cid { props := some ps }).1
        st.scene.selected)).Nodup := by
      rw [(foldSel_char reg false st.scene.selected _ hnd1).1]
      exact hnd1
    refine ⟨applyUpdates e1 (selMetaUpdate true),
      engineUpdate_get_self reg _ cid (selMetaUpdate true) e1 hndfold hgetfold,
      ?_, ?_, ?_, ?_, ?_⟩
    · rfl
    · show Obj.get e1.props "width" = some (.vNum fb.1)
      show Obj.get (Obj.merge e.props ps) "width" = some (.vNum fb.1)
      exact Obj.get_merge_some ps e.props "width" (.vNum fb.1) hkeysps hpw
    · show Obj.get e1.props "height" = some (.vNum fb.2)
      show Obj.get (Obj.merge e.props ps) "height" = some (.vNum fb.2)
      exact Obj.get_merge_some ps e.props "height" (.vNum fb.2) hkeysps hph
    · show truthyOpt (Obj.get (Obj.merge e1.metadata
        [("selected", .vBool true)]) "selected") = true
      rw [Obj.merge_single, truthy_set_bool]
    · intro hcn
      show Obj.get e1.props "end" = some (.vPoint (e.transform.x + fb.1)
        (e.transform.y + fb.2))
      show Obj.get (Obj.merge e.props ps) "end" = some (.vPoint
        (e.transform.x + fb.1) (e.transform.y + fb.2))
      exact Obj.get_merge_some ps e.props "end" _ hkeysps (hpend hcn)

theorem pointerUp_snap_below_threshold_witness :
    (onPointerUpModel engineRegistry c6State).activeTool = "SELECT" ∧
    (onPointerUpModel engineRegistry c6State).scene.selected = ["r"] ∧
    ∃ e2, Store.get (onPointerUpModel engineRegistry c6State).scene.store "r" =
        some e2 ∧
      e2.transform = c6Rect.transform ∧
      Obj.get e2.props "width" = some (.vNum 100) ∧
      Obj.get e2.props "height" = some (.vNum 100) ∧
      truthyOpt (Obj.get e2.metadata "selected") = true ∧
      (isConnectorType c6Rect.type = true →
        Obj.get e2.props "end" = some (.vPoint
          (c6Rect.transform.x + 100) (c6Rect.transform.y + 100))) :=
  pointerUp_snap_below_threshold engineRegistry c6State "r" c6Rect 5 5
    (by decide) (by decide) rfl (by decide) rfl rfl rfl
    (Or.inl (by norm_num)) (by decide) (Or.inl rfl)

theorem c6_stageA :
    onPointerUpModel engineRegistry lineCreationState =
      { scene := selectOp engineRegistry ⟨[anchorRect, c6l1], ["x"]⟩ "l" false
        activeTool := "SELECT", framePreset := none
        creatingEntityId := none, createStartPoint := none } := by
  have hlt : (5 : ℚ) < 10 := by norm_num
  have hadd : (2 : ℚ) + 100 = 102 := by norm_num
  simp [onPointerUpModel, lineCreationState, creatingLine, anchorRect,
    creationFallback, isConnectorType, numOf, truthyOpt, Value.truthy,
    engineUpdateObject, connectionReact, applyUpdates, Store.setEntry,
    Store.get, Obj.get, Obj.merge, Obj.set, c6l1, Transform.apply,
    hlt, hadd, List.foldl_cons, List.foldl_nil, List.any_cons,
    List.any_nil, List.map_cons, List.map_nil]

theorem c6_stageB :
    selectOp engineRegistry ⟨[anchorRect, c6l1], ["x"]⟩ "l" false =
      ⟨[c6x1, c6l3], ["l"]⟩ := by
  have h1 : (0 : ℚ) + 100 = 100 := by norm_num
  have h2 : (100 : ℚ) / 2 = 50 := by norm_num
  have hadd : (2 : ℚ) + 100 = 102 := by norm_num
  have hmin1 : min (100 : ℚ) 102 = 100 := min_eq_left (by norm_num)
  have hmin2 : min (50 : ℚ) 102 = 50 := min_eq_left (by norm_num)
  have hsub1 : (102 : ℚ) - 100 = 2 := by norm_num
  have hsub2 : (102 : ℚ) - 50 = 52 := by norm_num
  have habs2 : |(2 : ℚ)| = 2 := abs_of_nonneg (by norm_num)
  have habs52 : |(52 : ℚ)| = 52 := abs_of_nonneg (by norm_num)
  simp [selectOp, engineUpdateObject, connectionReact,
    updateLineConnections, ulcUpdates, ulcStart, ulcEnd, resolveConn,
    getObjectType, engineRegistry, getAnchorPoint, anchorOr, anchorOfString,
    valOrPoint, rectGetBBox, sceneUpdateObject, applyUpdates,
    Transform.apply, Obj.merge, Obj.set, Obj.get, Store.get, Store.setEntry,
    selMetaUpdate, selectedSetAdd, isConnectorType, numOf, truthyOpt,
    Value.truthy, c6l1, c6x1, c6l2, c6l3, anchorRect,
    h1, h2, hadd, hmin1, hmin2, hsub1, hsub2, habs2, habs52,
    List.find?, List.filter_cons, List.filter_nil,
    List.foldl_cons, List.foldl_nil, List.any_cons, List.any_nil,
    List.map_cons, List.map_nil]

/-- C6 counterexample to the original claim: on pointer-up the
below-threshold connector `creatingLine` (no live end connection,
start-connected to the still-selected `anchorRect`) is first snapped to
the 100 x 100 fallback at its unchanged position (2, 2), but the
selection change on the same pointer-up immediately re-routes it, so the
final entity has transform (100, 50) and size 2 x 52 instead of the
snapped 100 x 100 at (2, 2). -/
theorem pointerUp_snap_cex :
    (onPointerUpModel engineRegistry lineCreationState).scene.selected = ["l"] ∧
    (Store.get (onPointerUpModel engineRegistry lineCreationState).scene.store
        "l").map (fun e => (e.transform.x, e.transform.y,
          Obj.get e.props "width", Obj.get e.props "height")) =
      some (100, 50, some (.vNum 2), some (.vNum 52)) := by
  rw [c6_stageA]
  rw [show selectOp engineRegistry ⟨[anchorRect, c6l1], ["x"]⟩ "l" false =
    ⟨[c6x1, c6l3], ["l"]⟩ from c6_stageB]
  exact ⟨rfl, rfl⟩

theorem resolveConn_stable (reg : List ObjectTypeDefinition)
    (st st' : Store) (v : Option Value)
    (h : ∀ cid, v = some (.vStr cid) →
      Store.get st' cid = Store.get st cid) :
    resolveConn reg st' v = resolveConn reg st v := by
  cases v with
  | none => rfl
  | some w =>
    cases w with
    | vNull => rfl
    | vBool b => rfl
    | vNum q => rfl
    | vPoint a b => rfl
    | vStr cid =>
      simp only [resolveConn]
      by_cases hc : cid = ""
      · rw [if_pos hc, if_pos hc]
      · rw [if_neg hc, if_neg hc, h cid rfl]

theorem ulcUpdates_stable (reg : List ObjectTypeDefinition)
    (st st' : Store) (L : CanvasEntity)
    (hs : ∀ cid, Obj.get L.props "startConnectedId" = some (.vStr cid) →
      Store.get st' cid = Store.get st cid)
    (he : ∀ cid, Obj.get L.props "endConnectedId" = some (.vStr cid) →
      Store.get st' cid = Store.get st cid) :
    ulcUpdates reg st' L = ulcUpdates reg st L := by
  have h1 : ulcStart reg st' L = ulcStart reg st L := by
    unfold ulcStart
    rw [resolveConn_stable reg st st' _ hs]
  have h2 : ulcEnd reg st' L = ulcEnd reg st L := by
    unfold ulcEnd
    rw [resolveConn_stable reg st st' _ he]
  unfold ulcUpdates
  rw [h1, h2]

theorem forall2_geoSim_get_some_rev {s t : Store}
    (h : List.Forall₂ GeoSim s t) (c : String) (b : CanvasEntity)
    (hb : Store.get t c = some b) :
    ∃ a, Store.get s c = some a ∧ GeoSim a b := by
  induction h with
  | nil => cases hb
  | cons hab h ih =>
    rename_i x y l1 l2
    by_cases hyc : y.id = c
    · rw [Store.get_entry_cons, if_pos hyc] at hb
      have hxc : x.id = c := by
        rw [← hab.1]
        exact hyc
      have hyb : y = b := Option.some_inj.mp hb
      refine ⟨x, ?_, hyb ▸ hab⟩
      rw [Store.get_entry_cons, if_pos hxc]
    · rw [Store.get_entry_cons, if_neg hyc] at hb
      have hxc : ¬(x.id = c) := fun hx => hyc (hab.1.trans hx)
      rcases ih hb with ⟨a, ha, hR⟩
      refine ⟨a, ?_, hR⟩
      rw [Store.get_entry_cons, if_neg hxc]
      exact ha

theorem react_fold_eval (reg : List ObjectTypeDefinition) (st1 : Store)
    (hnd : (idsOf st1).Nodup) :
    ∀ (ls : List CanvasEntity) (acc : Store × List SceneEvent),
    List.Forall₂ GeoSim st1 acc.1 →
    (∀ L ∈ ls, isConnectorType L.type = true ∧
      Store.get acc.1 L.id = some L) →
    (ls.map (fun L => L.id)).Nodup →
    (∀ L ∈ ls, ∀ cid T,
      (Obj.get L.props "startConnectedId" = some (.vStr cid) ∨
       Obj.get L.props "endConnectedId" = some (.vStr cid)) →
      Store.get st1 cid = some T → isConnectorType T.type = false) →
    ∀ L ∈ ls,
      Store.get (ls.foldl (fun acc line =>
        let r := updateLineConnections reg acc.1 line
        (r.1, acc.2 ++ r.2)) acc).1 L.id =
        some (applyUpdates L (ulcUpdates reg st1 L)) := by
  intro ls
  induction ls with
  | nil =>
    intro acc _ _ _ _ L hL
    cases hL
  | cons L0 ls ih =>
    intro acc hacc hpres hndids href L hL
    have hndacc : (idsOf acc.1).Nodup := by
      rw [forall2_geoSim_idsOf hacc]
      exact hnd
    have hget0 : Store.get acc.1 L0.id = some L0 :=
      (hpres L0 (List.mem_cons_self L0 ls)).2
    have hconn0 : isConnectorType L0.type = true :=
      (hpres L0 (List.mem_cons_self L0 ls)).1
    have hstable : ulcUpdates reg acc.1 L0 = ulcUpdates reg st1 L0 := by
      apply ulcUpdates_stable
      · intro cid hcid
        cases hst : Store.get st1 cid with
        | none => exact forall2_geoSim_get_none hacc cid hst
        | some T =>
          have hTnc : isConnectorType T.type = false :=
            href L0 (List.mem_cons_self L0 ls) cid T (Or.inl hcid) hst
          rcases forall2_geoSim_get_some hacc cid T hst with ⟨b, hb, hR⟩
          rw [hb, hR.2.2.2 hTnc]
      · intro cid hcid
        cases hst : Store.get st1 cid with
        | none => exact forall2_geoSim_get_none hacc cid hst
        | some T =>
          have hTnc : isConnectorType T.type = false :=
            href L0 (List.mem_cons_self L0 ls) cid T (Or.inr hcid) hst
          rcases forall2_geoSim_get_some hacc cid T hst with ⟨b, hb, hR⟩
          rw [hb, hR.2.2.2 hTnc]
    have hid0 : (applyUpdates L0 (ulcUpdates reg acc.1 L0)).id = L0.id := by
      rw [applyUpdates_id]
    have hstep : (updateLineConnections reg acc.1 L0).1 =
        acc.1.map (fun x => if x.id = L0.id then
          applyUpdates L0 (ulcUpdates reg acc.1 L0) else x) := by
      unfold updateLineConnections
      rw [sceneUpdateObject_known _ _ _ L0 hget0]
    have hacc' : List.Forall₂ GeoSim st1 (updateLineConnections reg acc.1 L0).1 := by
      refine forall2_geoSim_trans hacc
        (updateLineConnections_forall2 reg acc.1 L0 hndacc ?_)
      intro e he
      have : e = L0 := Option.some_inj.mp (he.symm.trans hget0)
      rw [this]
      exact hconn0
    have hnd0 : L0.id ∉ ls.map (fun L => L.id) :=
      (List.nodup_cons.mp hndids).1
    rcases List.mem_cons.mp hL with hLeq | hLtail
    · rw [List.foldl_cons, hLeq]
      have hothers : ∀ L2 ∈ ls, ¬(L2.id = L0.id) := by
        intro L2 h2 he
        exact hnd0 (he ▸ List.mem_map.mpr ⟨L2, h2, rfl⟩)
      rw [react_fold_get_other reg ls _ L0.id hothers]
      show Store.get (updateLineConnections reg acc.1 L0).1 L0.id = _
      rw [hstep, Store.get_replace_self acc.1 L0.id L0 _ hid0 hget0,
        hstable]
    · rw [List.foldl_cons]
      have hpres' : ∀ L2 ∈ ls, isConnectorType L2.type = true ∧
          Store.get (updateLineConnections reg acc.1 L0).1 L2.id = some L2 := by
        intro L2 h2
        refine ⟨(hpres L2 (List.mem_cons_of_mem L0 h2)).1, ?_⟩
        rw [hstep]
        have hne : L2.id ≠ L0.id := by
          intro he
          exact hnd0 (he ▸ List.mem_map.mpr ⟨L2, h2, rfl⟩)
        rw [Store.get_replace_ne acc.1 L0.id L2.id _ hid0 hne]
        exact (hpres L2 (List.mem_cons_of_mem L0 h2)).2
      exact ih ((updateLineConnections reg acc.1 L0).1,
          acc.2 ++ (updateLineConnections reg acc.1 L0).2) hacc' hpres'
        (List.nodup_cons.mp hndids).2
        (fun L2 h2 => href L2 (List.mem_cons_of_mem L0 h2)) L hLtail

/-- C1 (amended): when a non-connector entity is updated through
`SceneManager.updateObject`, every LINE/ARROW whose
`props.startConnectedId` or `props.endConnectedId` equals the updated id
is re-routed before the update returns: its stored raw endpoints are
points s and e, its transform is (min s.x e.x, min s.y e.y), its size is
(|e.x - s.x|, |e.y - s.y|), and each endpoint whose truthy connected id
resolves, in the store as left by the update, to an existing entity of a
registered type equals that entity's anchor point per the stored
start/end anchor (defaulting to center) — provided (the amendment) no
connector in the scene references an entity that is itself a connector.
Without that proviso the claim fails: a connector processed earlier in
the cycle keeps an endpoint computed from the pre-re-route box of a
referenced connector that is re-routed later in the same cycle (see the
counterexample). -/
theorem updateObject_reroutes_connectors (reg : List ObjectTypeDefinition)
    (store : Store) (id : String) (u : EntityUpdates) (E : CanvasEntity)
    (hnd : (idsOf store).Nodup)
    (hgetE : Store.get store id = some E)
    (hncE : isConnectorType E.type = false)
    (hkeys : ∀ L ∈ store, (L.props.map Prod.fst).Nodup)
    (href : ∀ L ∈ store, isConnectorType L.type = true → ∀ cid T,
      (Obj.get L.props "startConnectedId" = some (.vStr cid) ∨
       Obj.get L.props "endConnectedId" = some (.vStr cid)) →
      Store.get store cid = some T → isConnectorType T.type = false) :
    ∀ lid L',
    Store.get (engineUpdateObject reg store id u).1 lid = some L' →
    isConnectorType L'.type = true →
    (Obj.get L'.props "startConnectedId" = some (.vStr id) ∨
     Obj.get L'.props "endConnectedId" = some (.vStr id)) →
    ∃ ps pe : Point,
      Obj.get L'.props "start" = some (.vPoint ps.x ps.y) ∧
      Obj.get L'.props "end" = some (.vPoint pe.x pe.y) ∧
      L'.transform.x = min ps.x pe.x ∧ L'.transform.y = min ps.y pe.y ∧
      Obj.get L'.props "width" = some (.vNum |pe.x - ps.x|) ∧
      Obj.get L'.props "height" = some (.vNum |pe.y - ps.y|) ∧
      (∀ cid T td,
        Obj.get L'.props "startConnectedId" = some (.vStr cid) → cid ≠ "" →
        Store.get (engineUpdateObject reg store id u).1 cid = some T →
        getObjectType reg T.type = some td →
        ps = getAnchorPoint (td.getBBox T)
          (anchorOr (Obj.get L'.props "startAnchor"))) ∧
      (∀ cid T td,
        Obj.get L'.props "endConnectedId" = some (.vStr cid) → cid ≠ "" →
        Store.get (engineUpdateObject reg store id u).1 cid = some T →
        getObjectType reg T.type = some td →
        pe = getAnchorPoint (td.getBBox T)
          (anchorOr (Obj.get L'.props "endAnchor"))) := by
  intro lid L' hget' hconn' hrefs'
  have hmemE := Store.get_some_mem store id E hgetE
  set E' := applyUpdates E u with hEdef
  have hE'id : E'.id = id := by
    rw [hEdef, applyUpdates_id]
    exact hmemE.2
  have hE'nc : isConnectorType E'.type = false := by
    rw [hEdef, applyUpdates_type]
    exact hncE
  set st1 := store.map (fun x => if x.id = id then E' else x) with hst1def
  have hknown : (engineUpdateObject reg store id u).1 =
      (connectionReact reg st1 E').1 :=
    engineUpdateObject_known reg store id u E hgetE
  have hnd1 : (idsOf st1).Nodup := by
    rw [hst1def, idsOf_map_replace store id E' hE'id]
    exact hnd
  have hst1_id : Store.get st1 id = some E' :=
    Store.get_replace_self store id E E' hE'id hgetE
  have hst1_ne : ∀ c, c ≠ id → Store.get st1 c = Store.get store c :=
    fun c hc => Store.get_replace_ne store id c E' hE'id hc
  have hmem1 : ∀ L ∈ st1, isConnectorType L.type = true → L ∈ store := by
    intro L hL hLc
    rcases List.mem_map.mp hL with ⟨x, hx, hxe⟩
    by_cases hxid : x.id = id
    · rw [if_pos hxid] at hxe
      rw [← hxe, hE'nc] at hLc
      cases hLc
    · rw [if_neg hxid] at hxe
      rw [← hxe]
      exact hx
  have href1 : ∀ L ∈ st1, isConnectorType L.type = true → ∀ cid T,
      (Obj.get L.props "startConnectedId" = some (.vStr cid) ∨
       Obj.get L.props "endConnectedId" = some (.vStr cid)) →
      Store.get st1 cid = some T → isConnectorType T.type = false := by
    intro L hL hLc cid T hside hgetc
    by_cases hcid : cid = id
    · rw [hcid] at hgetc
      have hTe : T = E' := Option.some_inj.mp (hgetc.symm.trans hst1_id)
      rw [hTe]
      exact hE'nc
    · rw [hst1_ne cid hcid] at hgetc
      exact href L (hmem1 L hL hLc) hLc cid T hside hgetc
  set ls := st1.filter (fun o =>
    isConnectorType o.type &&
    (decide (Obj.get o.props "startConnectedId" = some (.vStr E'.id)) ||
     decide (Obj.get o.props "endConnectedId" = some (.vStr E'.id)))) with hlsdef
  have hCR : (connectionReact reg st1 E').1 =
      (ls.foldl (fun acc line =>
        let r := updateLineConnections reg acc.1 line
        (r.1, acc.2 ++ r.2)) (st1, [])).1 := by
    unfold connectionReact
    rw [if_neg (show ¬(isConnectorType E'.type = true) by
      rw [hE'nc]
      exact Bool.false_ne_true)]
  have hls_sub : List.Sublist ls st1 := by
    rw [hlsdef]
    exact List.filter_sublist st1
  have hls_ids_nodup : (ls.map (fun L => L.id)).Nodup :=
    List.Nodup.sublist (hls_sub.map (fun L => L.id)) hnd1
  have hls_pres : ∀ L ∈ ls, isConnectorType L.type = true ∧
      Store.get st1 L.id = some L := by
    intro L hL
    have hmf := List.mem_filter.mp (hlsdef ▸ hL)
    exact ⟨((Bool.and_eq_true _ _).mp hmf.2).1,
      Store.get_mem_nodup st1 L hnd1 hmf.1⟩
  have hls_href : ∀ L ∈ ls, ∀ cid T,
      (Obj.get L.props "startConnectedId" = some (.vStr cid) ∨
       Obj.get L.props "endConnectedId" = some (.vStr cid)) →
      Store.get st1 cid = some T → isConnectorType T.type = false := by
    intro L hL cid T hside hc
    have hmf := List.mem_filter.mp (hlsdef ▸ hL)
    exact href1 L hmf.1 ((Bool.and_eq_true _ _).mp hmf.2).1 cid T hside hc
  have heval := react_fold_eval reg st1 hnd1 ls (st1, [])
    (forall2_geoSim_refl st1) hls_pres hls_ids_nodup hls_href
  have hfull : List.Forall₂ GeoSim st1 (connectionReact reg st1 E').1 :=
    connectionReact_forall2 reg st1 E' hnd1
  rw [hknown] at hget'
  rcases forall2_geoSim_get_some_rev hfull lid L' hget' with ⟨L, hgetL, hRL⟩
  have hLid : L.id = lid := (Store.get_some_mem st1 lid L hgetL).2
  have hLmem : L ∈ st1 := (Store.get_some_mem st1 lid L hgetL).1
  have hLconn : isConnectorType L.type = true := by
    rw [← hRL.2.1]
    exact hconn'
  have hLls : L ∈ ls := by
    by_contra hLnot
    have hothers : ∀ L2 ∈ ls, ¬(L2.id = lid) := by
      intro L2 h2 he
      have hmf := List.mem_filter.mp (hlsdef ▸ h2)
      have hg2 : Store.get st1 L2.id = some L2 :=
        Store.get_mem_nodup st1 L2 hnd1 hmf.1
      rw [he, hgetL] at hg2
      exact hLnot ((Option.some_inj.mp hg2.symm) ▸ h2)
    have hpre : Store.get st1 lid = some L' := by
      rw [← react_fold_get_other reg ls (st1, []) lid hothers, ← hCR]
      exact hget'
    have hL'L : L' = L := Option.some_inj.mp (hpre.symm.trans hgetL)
    apply hLnot
    rw [hlsdef]
    apply List.mem_filter.mpr
    refine ⟨hLmem, (Bool.and_eq_true _ _).mpr ⟨hLconn,
      (Bool.or_eq_true _ _).mpr ?_⟩⟩
    rcases hrefs' with hside | hside
    · left
      rw [decide_eq_true_eq, hE'id, ← hL'L]
      exact hside
    · right
      rw [decide_eq_true_eq, hE'id, ← hL'L]
      exact hside
  have hLstore : L ∈ store := hmem1 L hLmem hLconn
  have hfinalL : Store.get (connectionReact reg st1 E').1 lid =
      some (applyUpdates L (ulcUpdates reg st1 L)) := by
    rw [hCR, ← hLid]
    exact heval L hLls
  have hL'val : L' = applyUpdates L (ulcUpdates reg st1 L) :=
    Option.some_inj.mp (hget'.symm.trans hfinalL)
  set sp := ulcStart reg st1 L with hspdef
  set ep := ulcEnd reg st1 L with hepdef
  set M4 : Obj := [("width", .vNum |ep.x - sp.x|),
    ("height", .vNum |ep.y - sp.y|),
    ("start", .vPoint sp.x sp.y), ("end", .vPoint ep.x ep.y)] with hM4def
  have hndM4 : (M4.map Prod.fst).Nodup := by
    rw [hM4def]
    simp
  set P1 := Obj.merge L.props M4 with hP1def
  have hkP1 : (P1.map Prod.fst).Nodup := by
    rw [hP1def]
    exact Obj.keys_merge_nodup M4 L.props (hkeys L hLstore)
  have hprops : L'.props = Obj.merge L.props P1 := by
    rw [hL'val]
    rfl
  have hgetP1 : ∀ k v, Obj.get M4 k = some v → Obj.get L'.props k = some v := by
    intro k v hk
    rw [hprops]
    exact Obj.get_merge_some P1 L.props k v hkP1
      (hP1def ▸ Obj.get_merge_some M4 L.props k v hndM4 hk)
  have hsame : ∀ k, Obj.get M4 k = none →
      Obj.get L'.props k = Obj.get L.props k := by
    intro k hk
    rw [hprops, Obj.get_merge_firstSome L.props P1 hkP1, hP1def,
      Obj.get_merge_none L.props M4 k hk]
    cases Obj.get L.props k with
    | none => rfl
    | some w => rfl
  refine ⟨sp, ep, hgetP1 "start" _ (by rw [hM4def]; rfl),
    hgetP1 "end" _ (by rw [hM4def]; rfl), ?_, ?_,
    hgetP1 "width" _ (by rw [hM4def]; rfl),
    hgetP1 "height" _ (by rw [hM4def]; rfl), ?_, ?_⟩
  · rw [hL'val]
    rfl
  · rw [hL'val]
    rfl
  · intro cid T td hcid hne hgetT htd
    have hcidL : Obj.get L.props "startConnectedId" = some (.vStr cid) := by
      rw [← hsame "startConnectedId" (by rw [hM4def]; rfl)]
      exact hcid
    have hgetTc : Store.get (connectionReact reg st1 E').1 cid = some T := by
      rw [← hknown]
      exact hgetT
    have hgetT1 : Store.get st1 cid = some T := by
      cases hst : Store.get st1 cid with
      | none =>
        rw [forall2_geoSim_get_none hfull cid hst] at hgetTc
        cases hgetTc
      | some T0 =>
        have hT0nc : isConnectorType T0.type = false :=
          hls_href L hLls cid T0 (Or.inl hcidL) hst
        rcases forall2_geoSim_get_some hfull cid T0 hst with ⟨b, hb, hR⟩
        have hbT0 : b = T0 := hR.2.2.2 hT0nc
        have hbT : b = T := Option.some_inj.mp (hb.symm.trans hgetTc)
        rw [← hbT0, hbT]
    have hres : resolveConn reg st1 (Obj.get L.props "startConnectedId") =
        some (T, td) := by
      rw [hcidL]
      simp only [resolveConn, hgetT1, htd, if_neg hne]
    have hsp2 : sp = getAnchorPoint (td.getBBox T)
        (anchorOr (Obj.get L.props "startAnchor")) := by
      rw [hspdef]
      unfold ulcStart
      rw [hres]
    rw [hsp2, hsame "startAnchor" (by rw [hM4def]; rfl)]
  · intro cid T td hcid hne hgetT htd
    have hcidL : Obj.get L.props "endConnectedId" = some (.vStr cid) := by
      rw [← hsame "endConnectedId" (by rw [hM4def]; rfl)]
      exact hcid
    have hgetTc : Store.get (connectionReact reg st1 E').1 cid = some T := by
      rw [← hknown]
      exact hgetT
    have hgetT1 : Store.get st1 cid = some T := by
      cases hst : Store.get st1 cid with
      | none =>
        rw [forall2_geoSim_get_none hfull cid hst] at hgetTc
        cases hgetTc
      | some T0 =>
        have hT0nc : isConnectorType T0.type = false :=
          hls_href L hLls cid T0 (Or.inr hcidL) hst
        rcases forall2_geoSim_get_some hfull cid T0 hst with ⟨b, hb, hR⟩
        have hbT0 : b = T0 := hR.2.2.2 hT0nc
        have hbT : b = T := Option.some_inj.mp (hb.symm.trans hgetTc)
        rw [← hbT0, hbT]
    have hres : resolveConn reg st1 (Obj.get L.props "endConnectedId") =
        some (T, td) := by
      rw [hcidL]
      simp only [resolveConn, hgetT1, htd, if_neg hne]
    have hep2 : ep = getAnchorPoint (td.getBBox T)
        (anchorOr (Obj.get L.props "endAnchor")) := by
      rw [hepdef]
      unfold ulcEnd
      rw [hres]
    rw [hep2, hsame "endAnchor" (by rw [hM4def]; rfl)]

theorem c1w_stage :
    (engineUpdateObject engineRegistry [anchorRect, creatingLine] "x"
      { transform := some { x := some 200 } }).1 = [c1wX, c1wL] := by
  have ha1 : (200 : ℚ) + 100 = 300 := by norm_num
  have ha2 : (0 : ℚ) + 100 = 100 := by norm_num
  have ha3 : (100 : ℚ) / 2 = 50 := by norm_num
  have ha4 : (2 : ℚ) + 5 = 7 := by norm_num
  have hm1 : min (300 : ℚ) 7 = 7 := min_eq_right (by norm_num)
  have hm2 : min (50 : ℚ) 7 = 7 := min_eq_right (by norm_num)
  have hs1 : (7 : ℚ) - 300 = -293 := by norm_num
  have hs2 : (7 : ℚ) - 50 = -43 := by norm_num
  have hb1 : |(-293 : ℚ)| = 293 := by
    rw [abs_of_nonpos (by norm_num)]
    norm_num
  have hb2 : |(-43 : ℚ)| = 43 := by
    rw [abs_of_nonpos (by norm_num)]
    norm_num
  simp [engineUpdateObject, connectionReact, updateLineConnections,
    ulcUpdates, ulcStart, ulcEnd, resolveConn, getObjectType, engineRegistry,
    getAnchorPoint, anchorOr, anchorOfString, valOrPoint, rectGetBBox,
    sceneUpdateObject, applyUpdates, Transform.apply, Obj.merge, Obj.set,
    Obj.get, Store.get, Store.setEntry, isConnectorType, numOf, truthyOpt,
    Value.truthy, anchorRect, creatingLine, c1wX, c1wL,
    ha1, ha2, ha3, ha4, hm1, hm2, hs1, hs2, hb1, hb2,
    List.find?, List.filter_cons, List.filter_nil,
    List.foldl_cons, List.foldl_nil, List.any_cons, List.any_nil,
    List.map_cons, List.map_nil]

theorem updateObject_reroutes_connectors_witness :
    ∃ ps pe : Point,
      Obj.get c1wL.props "start" = some (.vPoint ps.x ps.y) ∧
      Obj.get c1wL.props "end" = some (.vPoint pe.x pe.y) ∧
      c1wL.transform.x = min ps.x pe.x ∧ c1wL.transform.y = min ps.y pe.y ∧
      Obj.get c1wL.props "width" = some (.vNum |pe.x - ps.x|) ∧
      Obj.get c1wL.props "height" = some (.vNum |pe.y - ps.y|) ∧
      (∀ cid T td,
        Obj.get c1wL.props "startConnectedId" = some (.vStr cid) → cid ≠ "" →
        Store.get (engineUpdateObject engineRegistry
          [anchorRect, creatingLine] "x"
          { transform := some { x := some 200 } }).1 cid = some T →
        getObjectType engineRegistry T.type = some td →
        ps = getAnchorPoint (td.getBBox T)
          (anchorOr (Obj.get c1wL.props "startAnchor"))) ∧
      (∀ cid T td,
        Obj.get c1wL.props "endConnectedId" = some (.vStr cid) → cid ≠ "" →
        Store.get (engineUpdateObject engineRegistry
          [anchorRect, creatingLine] "x"
          { transform := some { x := some 200 } }).1 cid = some T →
        getObjectType engineRegistry T.type = some td →
        pe = getAnchorPoint (td.getBBox T)
          (anchorOr (Obj.get c1wL.props "endAnchor"))) :=
  updateObject_reroutes_connectors engineRegistry [anchorRect, creatingLine]
    "x" { transform := some { x := some 200 } } anchorRect
    (by decide) rfl rfl (by decide)
    (by
      intro L hL hLc cid T hside hget
      rcases List.mem_cons.mp hL with h1 | hL2
      · rw [h1] at hLc
        exact absurd hLc (by decide)
      rcases List.mem_cons.mp hL2 with h2 | h3
      · rw [h2] at hside
        rcases hside with h | h
        · have hx : Obj.get creatingLine.props "startConnectedId" =
              some (.vStr "x") := rfl
          rw [hx] at h
          have hcid : cid = "x" :=
            (Value.vStr.inj (Option.some_inj.mp h)).symm
          rw [hcid] at hget
          have hT : T = anchorRect := Option.some_inj.mp
            (hget.symm.trans (show Store.get [anchorRect, creatingLine] "x" =
              some anchorRect from rfl))
          rw [hT]
          rfl
        · have hx : Obj.get creatingLine.props "endConnectedId" =
              some (.vNull) := rfl
          rw [hx] at h
          exact Value.noConfusion (Option.some_inj.mp h)
      · cases h3)
    "l" c1wL
    (by
      rw [c1w_stage]
      decide)
    rfl (Or.inl rfl)

theorem c1_stage : c1Res = [cexX2, cexL2, cexM2] := by
  have ha1 : (200 : ℚ) + 100 = 300 := by norm_num
  have ha2 : (200 : ℚ) + 300 = 500 := by norm_num
  have ha3 : (500 : ℚ) / 2 = 250 := by norm_num
  have ha4 : (150 : ℚ) + 10 = 160 := by norm_num
  have ha5 : (150 : ℚ) + 160 = 310 := by norm_num
  have ha6 : (310 : ℚ) / 2 = 155 := by norm_num
  have ha7 : (0 : ℚ) + 100 = 100 := by norm_num
  have ha8 : (1 : ℚ) + 1 = 2 := by norm_num
  have hm1 : min (250 : ℚ) 155 = 155 := min_eq_right (by norm_num)
  have hm2 : min (0 : ℚ) 155 = 0 := min_eq_left (by norm_num)
  have hm3 : min (250 : ℚ) 160 = 160 := min_eq_right (by norm_num)
  have hm4 : min (100 : ℚ) 160 = 100 := min_eq_left (by norm_num)
  have hs1 : (155 : ℚ) - 250 = -95 := by norm_num
  have hs2 : (155 : ℚ) - 0 = 155 := by norm_num
  have hs3 : (160 : ℚ) - 250 = -90 := by norm_num
  have hs4 : (160 : ℚ) - 100 = 60 := by norm_num
  have hb1 : |(-95 : ℚ)| = 95 := by
    rw [abs_of_nonpos (by norm_num)]
    norm_num
  have hb2 : |(155 : ℚ)| = 155 := abs_of_nonneg (by norm_num)
  have hb3 : |(-90 : ℚ)| = 90 := by
    rw [abs_of_nonpos (by norm_num)]
    norm_num
  have hb4 : |(60 : ℚ)| = 60 := abs_of_nonneg (by norm_num)
  simp [c1Res, engineUpdateObject, connectionReact, updateLineConnections,
    ulcUpdates, ulcStart, ulcEnd, resolveConn, getObjectType, engineRegistry,
    getAnchorPoint, anchorOr, anchorOfString, valOrPoint, rectGetBBox,
    sceneUpdateObject, applyUpdates, Transform.apply, Obj.merge, Obj.set,
    Obj.get, Store.get, Store.setEntry, isConnectorType, numOf, truthyOpt,
    Value.truthy, cexX, cexL, cexM, cexX2, cexL2, cexM2,
    ha1, ha2, ha3, ha4, ha5, ha6, ha7, ha8, hm1, hm2, hm3, hm4,
    hs1, hs2, hs3, hs4, hb1, hb2, hb3, hb4,
    List.find?, List.filter_cons, List.filter_nil,
    List.foldl_cons, List.foldl_nil, List.any_cons, List.any_nil,
    List.map_cons, List.map_nil]

/-- C1 counterexample to the original claim: moving `cexX` re-routes both
connectors in store order; `cexL` (processed first) stores as its end the
center anchor (155, 155) of `cexM`'s pre-re-route box, but `cexM` is then
itself re-routed in the same cycle, so when `updateObject` returns,
`cexL`'s stored end no longer equals the anchor point of its referenced
entity's current bounding box (which is (205, 130)), although that entity
exists and its type LINE is registered. -/
theorem updateObject_reroutes_cex :
    ∃ L' M' td,
      Store.get c1Res "l" = some L' ∧
      isConnectorType L'.type = true ∧
      Obj.get L'.props "startConnectedId" = some (.vStr "x") ∧
      Obj.get L'.props "endConnectedId" = some (.vStr "m") ∧
      Store.get c1Res "m" = some M' ∧
      getObjectType engineRegistry M'.type = some td ∧
      Obj.get L'.props "end" ≠ some (.vPoint
        (getAnchorPoint (td.getBBox M')
          (anchorOr (Obj.get L'.props "endAnchor"))).x
        (getAnchorPoint (td.getBBox M')
          (anchorOr (Obj.get L'.props "endAnchor"))).y) := by
  have hanchor : getAnchorPoint (rectGetBBox cexM2)
      (anchorOr (Obj.get cexL2.props "endAnchor")) = ⟨205, 130⟩ := by
    have k1 : (160 : ℚ) + 90 = 250 := by norm_num
    have k2 : (100 : ℚ) + 60 = 160 := by norm_num
    have k3 : (160 : ℚ) + 250 = 410 := by norm_num
    have k4 : (410 : ℚ) / 2 = 205 := by norm_num
    have k5 : (100 : ℚ) + 160 = 260 := by norm_num
    have k6 : (260 : ℚ) / 2 = 130 := by norm_num
    simp [rectGetBBox, getAnchorPoint, anchorOr, anchorOfString, cexM2,
      cexL2, Obj.get, numOf, k1, k2, k3, k4, k5, k6]
  refine ⟨cexL2, cexM2, ⟨"LINE", lineHitTest, rectGetBBox⟩,
    ?_, rfl, rfl, rfl, ?_, rfl, ?_⟩
  · rw [c1_stage]
    decide
  · rw [c1_stage]
    decide
  · intro hcontra
    rw [show Obj.get cexL2.props "end" = some (.vPoint 155 155) from rfl,
      show getAnchorPoint
          ((⟨"LINE", lineHitTest, rectGetBBox⟩ :
            ObjectTypeDefinition).getBBox cexM2)
          (anchorOr (Obj.get cexL2.props "endAnchor")) = (⟨205, 130⟩ : Point)
        from hanchor] at hcontra
    exact absurd hcontra (by decide)

end Brink
